import Mathlib

/-!
# Verification of the `wuff` WOFF/WOFF2 font decoder

This file is a shallow embedding, in Lean 4, of the Rust sources of the
`wuff` repository (a WOFF1/WOFF2 → SFNT font decompressor), together with
theorems settling a list of claims about that code.

Modelling conventions, used uniformly below:

* A byte is a `Nat` (kept `< 256` by construction of all inputs and writes).
  A byte buffer / Rust `&[u8]` cursor is a `List Nat`; reading advances by
  returning the unread tail, exactly like the `bytes::Buf` impl for `&[u8]`.
* Machine integers are `Nat` (unsigned) or `Int` (signed) with explicit
  reductions `% 2^16`, `% 2^32`, `% 2^64` at exactly the places where the
  Rust code truncates (an `as uN` cast or wrapping arithmetic).  Release
  semantics are modelled: arithmetic that Rust would wrap in release mode
  wraps here.
* A Rust `Result<T, WuffErr>` is `Res T`.  `Res.err` is the `WuffErr`
  error return; `Res.crash` models a Rust panic (out-of-bounds index or
  slice, failed `assert!`/`unreachable!`/`expect`, `.unwrap()` of an error).
  Both propagate outwards, as in Rust, but they are kept distinct because
  some claims distinguish clean errors from panics.
-/

namespace Wuff

/-- Result of running a piece of the decoder: a successful value, a clean
`WuffErr` error return, or a Rust panic (`crash`). -/
inductive Res (α : Type) where
  | ok    : α → Res α
  | err   : Res α
  | crash : Res α
  deriving Repr, DecidableEq

namespace Res

def bind {α β : Type} : Res α → (α → Res β) → Res β
  | ok a,  f => f a
  | err,   _ => err
  | crash, _ => crash

def isOk {α : Type} : Res α → Bool
  | ok _ => true
  | _    => false

end Res

instance : Monad Res where
  pure := Res.ok
  bind := Res.bind

@[simp] theorem Res.bind_ok {α β : Type} (a : α) (f : α → Res β) :
    Res.bind (Res.ok a) f = f a := rfl

@[simp] theorem Res.bind_err {α β : Type} (f : α → Res β) :
    Res.bind Res.err f = Res.err := rfl

@[simp] theorem Res.bind_crash {α β : Type} (f : α → Res β) :
    Res.bind Res.crash f = Res.crash := rfl

@[simp] theorem Res.pure_eq_ok {α : Type} (a : α) :
    (pure a : Res α) = Res.ok a := rfl

@[simp] theorem Res.monad_bind_eq_bind {α β : Type} (x : Res α) (f : α → Res β) :
    x >>= f = Res.bind x f := rfl

/-! ## Byte-level primitives

These model the `bytes` crate's `try_get_*` methods on `&[u8]` (big-endian
reads that fail cleanly when the slice is too short) and the corresponding
big-endian write helpers `put_u8`/`put_u16`/`put_i16`/`put_u32` (which append
to a `Vec<u8>`). -/

def tryGetU8 (buf : List Nat) : Res (Nat × List Nat) :=
  match buf with
  | []        => .err
  | b :: rest => .ok (b, rest)

def tryGetU16 (buf : List Nat) : Res (Nat × List Nat) :=
  match buf with
  | b0 :: b1 :: rest => .ok (b0 * 256 + b1, rest)
  | _                => .err

def tryGetU32 (buf : List Nat) : Res (Nat × List Nat) :=
  match buf with
  | b0 :: b1 :: b2 :: b3 :: rest => .ok (((b0 * 256 + b1) * 256 + b2) * 256 + b3, rest)
  | _                            => .err

/-- Unsigned 16-bit pattern reinterpreted as a signed `i16`. -/
def toI16 (v : Nat) : Int :=
  if v < 32768 then (v : Int) else (v : Int) - 65536

def tryGetI16 (buf : List Nat) : Res (Int × List Nat) :=
  match buf with
  | b0 :: b1 :: rest => .ok (toI16 (b0 * 256 + b1), rest)
  | _                => .err

/-- Big-endian bytes of a `u16` value. -/
def be16 (v : Nat) : List Nat := [v / 256 % 256, v % 256]

/-- Big-endian bytes of a `u32` value. -/
def be32 (v : Nat) : List Nat :=
  [v / 16777216 % 256, v / 65536 % 256, v / 256 % 256, v % 256]

/-- Big-endian bytes of an `i16` value (two's complement), as written by
`put_i16` (an `as i16` truncation is applied by the caller where the source
has one; `% 65536` over `Int` already realises that truncation). -/
def i16Bytes (x : Int) : List Nat := be16 ((x % 65536).toNat)

/-- `Round4!` from `lib.rs`: round up to a multiple of 4, except when the
`usize` addition `value + 3` would overflow, in which case the value is
returned unchanged. -/
def Round4 (n : Nat) : Nat :=
  if n + 3 ≤ 18446744073709551615 then (n + 3) / 4 * 4 else n

/-- `out.resize(Round4!(out.len()), 0)`: pad a buffer with zero bytes to a
multiple of four. -/
def pad4 (l : List Nat) : List Nat :=
  l ++ List.replicate (Round4 l.length - l.length) 0

/-- Loop of `compute_checksum` from `lib.rs`: big-endian `u32` sum (mod 2^32)
over 4-byte chunks, with a trailing 1-, 2- or 3-byte remainder treated as if
zero-padded to 4 bytes. -/
def computeChecksumGo : List Nat → Nat → Nat
  | a :: b :: c :: d :: rest, acc =>
      computeChecksumGo rest ((acc + (((a * 256 + b) * 256 + c) * 256 + d)) % 4294967296)
  | [a, b, c], acc => (acc + ((a * 256 + b) * 256 + c) * 256) % 4294967296
  | [a, b], acc => (acc + (a * 256 + b) * 65536) % 4294967296
  | [a], acc => (acc + a * 16777216) % 4294967296
  | [], acc => acc

/-- `compute_checksum` from `lib.rs`. -/
def compute_checksum (buf : List Nat) : Nat := computeChecksumGo buf 0

/-! ## `variable_length.rs`: 255UInt16 and UIntBase128 codings -/

/-- Loop body of `ReadBase128` from `variable_length.rs`.  `fuel` counts the
remaining iterations of the `for i in 0..5` loop and `first` records whether
this is iteration `i == 0` (the leading-zero check). -/
def ReadBase128Go : List Nat → Nat → Bool → Nat → Res (Nat × List Nat)
  | _, 0, _, _ => .err
  | buf, fuel + 1, first, result =>
    match buf with
    | [] => .err
    | code :: rest =>
      -- Leading zeros are invalid.
      if first && code == 128 then .err
      -- If any of the top seven bits are set then we're about to overflow.
      else if result &&& 0xfe000000 ≠ 0 then .err
      else
        let result := ((result <<< 7) % 4294967296) ||| (code &&& 0x7f)
        if code &&& 0x80 == 0 then .ok (result, rest)
        else ReadBase128Go rest fuel false result

/-- `ReadBase128` from `variable_length.rs`: UIntBase128 decoder (at most five
bytes, leading 0x80 rejected, 32-bit overflow rejected). -/
def ReadBase128 (buf : List Nat) : Res (Nat × List Nat) :=
  ReadBase128Go buf 5 true 0

/-- The loop of `Base128Size` from `variable_length.rs`, transcribed with a
fuel parameter because, as written in the source, the loop `while n < 128 {
n >>= 7; size += 1 }` does not terminate for `n < 128` (once `n` reaches 0 it
stays 0, which still satisfies `n < 128`).  `none` means the fuel ran out,
i.e. the Rust loop is still running after `fuel` iterations. -/
def Base128SizeGo : Nat → Nat → Nat → Option Nat
  | 0, _, _ => none
  | fuel + 1, n, size =>
      if n < 128 then Base128SizeGo fuel (n >>> 7) (size + 1) else some size

/-- `Base128Size` from `variable_length.rs` (fuelled; see `Base128SizeGo`). -/
def Base128Size (fuel n : Nat) : Option Nat := Base128SizeGo fuel n 1

/-- `StoreBase128` from `variable_length.rs`: writes `Base128Size` bytes, the
7-bit groups of `len` from most significant to least, with the continuation
bit set on all but the last.  Returns `none` when `Base128Size`'s loop has not
terminated within `fuel` iterations. -/
def StoreBase128 (fuel len : Nat) : Option (List Nat) :=
  (Base128Size fuel len).map fun size =>
    (List.range size).map fun i =>
      let b := (len >>> (7 * (size - i - 1))) &&& 0x7f
      if i < size - 1 then b ||| 0x80 else b

/-- `Read255UShort` from `variable_length.rs` (section 6.1.1 of the MicroType
Express draft spec): code 253 → big-endian u16; 255 → next byte + 253;
254 → next byte + 506; otherwise the code itself. -/
def Read255UShort (buf : List Nat) : Res (Nat × List Nat) := do
  let (code, rest) ← tryGetU8 buf
  if code == 253 then
    let (result, rest) ← tryGetU16 rest
    .ok (result, rest)
  else if code == 255 then
    let (result, rest) ← tryGetU8 rest
    .ok (result + 253, rest)
  else if code == 254 then
    let (result, rest) ← tryGetU8 rest
    .ok (result + 506, rest)
  else
    .ok (code, rest)

/-! Properties of the base128 coding used by claim C10. -/

theorem Base128SizeGo_none_of_lt (fuel : Nat) :
    ∀ n size, n < 128 → Base128SizeGo fuel n size = none := by
  induction fuel with
  | zero => intro n size _; rfl
  | succ f ih =>
      intro n size h
      have hshift : n >>> 7 = 0 := by
        have : n / 128 = 0 := Nat.div_eq_of_lt h
        simpa [Nat.shiftRight_eq_div_pow] using this
      simp only [Base128SizeGo, if_pos h, hshift]
      exact ih 0 (size + 1) (by norm_num)

/-- C10: the UIntBase128 round trip `ReadBase128 ∘ StoreBase128 = id` fails on
the code.  `Base128Size`'s loop condition is inverted (`while n < 128` where
the size computation needs `while n >= 128`), so for every `u < 128` the
encoder never terminates (no fuel suffices), and for `u = 128` it emits the
single byte `0x00`, which decodes to `0`, not `128`.  Only the second half of
the claim holds: a first byte `0x80` is rejected by the decoder. -/
theorem storeBase128_roundtrip_broken :
    (∀ fuel, StoreBase128 fuel 5 = none) ∧
    StoreBase128 5 128 = some [0] ∧
    ReadBase128 [0] = Res.ok (0, []) ∧
    (∀ rest, ReadBase128 (128 :: rest) = Res.err) := by
  refine ⟨fun fuel => ?_, by decide, by decide, fun rest => rfl⟩
  unfold StoreBase128 Base128Size
  rw [Base128SizeGo_none_of_lt fuel 5 1 (by norm_num)]
  rfl

/-! ## `table_tags.rs`: the known-tags table -/

/-- A 4-byte table tag as a big-endian `u32`, built from its ASCII name
(`TAG(a,b,c,d)` in `table_tags.rs`). -/
def tagNat (s : String) : Nat :=
  s.toList.foldl (fun acc c => acc * 256 + c.toNat) 0

/-- `KNOWN_TABLE_TAGS` / `kKnownTags` from `table_tags.rs`: the 63-entry
known-tags vector in its canonical order. -/
def KNOWN_TABLE_TAGS : List Nat :=
  ["cmap", "head", "hhea", "hmtx", "maxp", "name", "OS/2", "post",
   "cvt ", "fpgm", "glyf", "loca", "prep", "CFF ", "VORG", "EBDT",
   "EBLC", "gasp", "hdmx", "kern", "LTSH", "PCLT", "VDMX", "vhea",
   "vmtx", "BASE", "GDEF", "GPOS", "GSUB", "EBSC", "JSTF", "MATH",
   "CBDT", "CBLC", "COLR", "CPAL", "SVG ", "sbix", "acnt", "avar",
   "bdat", "bloc", "bsln", "cvar", "fdsc", "feat", "fmtx", "fvar",
   "gvar", "hsty", "just", "lcar", "mort", "morx", "opbd", "prop",
   "trak", "Zapf", "Silf", "Glat", "Gloc", "Feat", "Sill"].map tagNat

def glyfTag : Nat := tagNat "glyf"
def locaTag : Nat := tagNat "loca"
def headTag : Nat := tagNat "head"
def hheaTag : Nat := tagNat "hhea"
def hmtxTag : Nat := tagNat "hmtx"
def ttcfTag : Nat := tagNat "ttcf"
def woff1Sig : Nat := tagNat "woFF"
def woff2Sig : Nat := tagNat "woF2"

/-! ## `types.rs`: WOFF2 table directory entries -/

/-- `Woff2TableDirectoryEntry` from `types.rs`. -/
structure Woff2TableDirectoryEntry where
  tag : Nat
  format : Nat
  orig_length : Nat
  woff_offset : Nat
  woff_length : Nat
  deriving Repr, DecidableEq

/-- `Woff2TableDirectoryEntry::parse_flags` from `types.rs`: bits 0..5 index
the known-tags table (63 = literal tag follows), bits 6..7 are the transform
format. -/
def parse_flags (flags : Nat) : Option Nat × Nat :=
  let tag_bits := flags &&& 63
  let format := (flags &&& 192) >>> 6
  (KNOWN_TABLE_TAGS.get? tag_bits, format)

/-- `Woff2TableDirectoryEntry::is_transformed` from `types.rs`.  The source
has two match arms — one for `glyf`/`loca`, one for every other tag — and
both test `self.format == 0`. -/
def Woff2TableDirectoryEntry.is_transformed (e : Woff2TableDirectoryEntry) : Bool :=
  if e.tag = glyfTag ∨ e.tag = locaTag then
    -- For the glyf and loca tables, format 0 indicates transformed
    e.format == 0
  else
    -- For all other tables, format 0 indicates untransformed
    e.format == 0

/-- `Woff2TableDirectoryEntry::data_as_slice` from `types.rs`:
`data[woff_offset .. woff_offset + woff_length]`, or an error when that range
is out of bounds (`slice::get` is used, so no panic here). -/
def Woff2TableDirectoryEntry.data_as_slice (e : Woff2TableDirectoryEntry)
    (data : List Nat) : Res (List Nat) :=
  if e.woff_offset + e.woff_length ≤ data.length then
    .ok ((data.drop e.woff_offset).take e.woff_length)
  else .err

/-- Modelled from the spec: `BufVariableExt::try_get_variable_128_u32` (its
definition is not among the provided sources; §4.1 of the spec fixes its
behaviour as the UIntBase128 decoding, identical to `ReadBase128`). -/
def tryGetVariable128U32 (buf : List Nat) : Res (Nat × List Nat) :=
  ReadBase128 buf

/-- Modelled from the spec: `BufVariableExt::try_get_variable_255_u16` (its
definition is not among the provided sources; §4.1 of the spec fixes its
behaviour as the 255UInt16 decoding, identical to `Read255UShort`). -/
def tryGetVariable255U16 (buf : List Nat) : Res (Nat × List Nat) :=
  Read255UShort buf

/-- `Woff2TableDirectoryEntry::parse` from `types.rs`.  Note that both
UIntBase128 lengths (`orig_length` then `woff_length`) are read
unconditionally, whatever the transform format is. -/
def Woff2TableDirectoryEntry.parse (input : List Nat) :
    Res (Woff2TableDirectoryEntry × List Nat) := do
  let (flags, input) ← tryGetU8 input
  let (tagOpt, format) := parse_flags flags
  let (tag, input) ←
    match tagOpt with
    | some t => Res.ok (t, input)
    | none   => tryGetU32 input
  let (orig_length, input) ← tryGetVariable128U32 input
  let (woff_length, input) ← tryGetVariable128U32 input
  let entry : Woff2TableDirectoryEntry :=
    { tag, format, orig_length, woff_offset := 0, woff_length }
  -- Validate
  if entry.tag = locaTag ∧ entry.woff_length ≠ 0 then .err
  else .ok (entry, input)

/-- `TableDirectory` from `types.rs` (WOFF2 instantiation). -/
structure Woff2TableDirectory where
  tables : List Woff2TableDirectoryEntry
  size : Nat
  deriving Repr, DecidableEq

/-- Entry loop of `Woff2TableDirectory::parse`: parse each entry, assign its
running `woff_offset` (as `u32`), check the `usize` accumulation for
overflow, and accumulate. -/
def woff2DirGo : Nat → List Nat → Nat → List Woff2TableDirectoryEntry →
    Res (List Woff2TableDirectoryEntry × List Nat)
  | 0, input, _, acc => .ok (acc, input)
  | n + 1, input, offset_in_woff, acc => do
      let (t, input) ← Woff2TableDirectoryEntry.parse input
      let t := { t with woff_offset := offset_in_woff % 4294967296 }
      -- Check for for overflow
      if offset_in_woff + t.woff_length > 18446744073709551615 then .err
      else woff2DirGo n input (offset_in_woff + t.woff_length) (acc ++ [t])

/-- `Woff2TableDirectory::parse` from `types.rs`.  The `size` bookkeeping
transcribes the source's `input.remaining() - initial_remaining` (a wrapping
`usize` subtraction in release mode; the operands are in this order in the
source). -/
def Woff2TableDirectory.parse (input : List Nat) (num_tables : Nat) :
    Res (Woff2TableDirectory × List Nat) := do
  let initial_remaining := input.length
  let (tables, input) ← woff2DirGo num_tables input 0 []
  let size := (input.length + 18446744073709551616 - initial_remaining) % 18446744073709551616
  .ok ({ tables, size }, input)

/-! ## `types.rs`: WOFF header -/

inductive WoffVersion where
  | woff1 : WoffVersion
  | woff2 : WoffVersion
  deriving Repr, DecidableEq

/-- `WoffHeader` from `types.rs` (unified WOFF1/WOFF2 header). -/
structure WoffHeader where
  woff_version : WoffVersion
  signature : Nat
  flavor : Nat
  length : Nat
  num_tables : Nat
  reserved : Nat
  total_sfnt_size : Nat
  total_compressed_size : Nat
  major_version : Nat
  minor_version : Nat
  meta_offset : Nat
  meta_length : Nat
  meta_orig_length : Nat
  priv_offset : Nat
  priv_length : Nat
  deriving Repr, DecidableEq

/-- `WoffHeader::parse` from `types.rs`. -/
def WoffHeader.parse (input : List Nat) : Res (WoffHeader × List Nat) := do
  let input_len := input.length
  let input_len_u32 := input_len % 4294967296
  let (signature, input) ← tryGetU32 input
  let (woff_version : WoffVersion) ←
    if signature = woff1Sig then .ok .woff1
    else if signature = woff2Sig then .ok .woff2
    else .err
  let (flavor, input) ← tryGetU32 input
  let (length, input) ← tryGetU32 input
  let (num_tables, input) ← tryGetU16 input
  let (reserved, input) ← tryGetU16 input
  let (total_sfnt_size, input) ← tryGetU32 input
  -- totalCompressedSize field only exists in WOFF2 headers.  It is set to
  -- zero for WOFF1.
  let (total_compressed_size, input) ←
    match woff_version with
    | .woff1 => Res.ok (0, input)
    | .woff2 => tryGetU32 input
  let (major_version, input) ← tryGetU16 input
  let (minor_version, input) ← tryGetU16 input
  let (meta_offset, input) ← tryGetU32 input
  let (meta_length, input) ← tryGetU32 input
  let (meta_orig_length, input) ← tryGetU32 input
  let (priv_offset, input) ← tryGetU32 input
  let (priv_length, input) ← tryGetU32 input
  let header : WoffHeader :=
    { woff_version, signature, flavor, length, num_tables, reserved,
      total_sfnt_size, total_compressed_size, major_version, minor_version,
      meta_offset, meta_length, meta_orig_length, priv_offset, priv_length }
  -- Validate
  if header.length ≠ input_len_u32 then .err
  else if header.num_tables = 0 then .err
  else if header.reserved ≠ 0 then .err
  else if header.meta_offset ≠ 0 ∧
      (header.meta_offset ≥ input_len_u32 ∨
       input_len_u32 - header.meta_offset < header.meta_length) then .err
  else if header.priv_offset ≠ 0 ∧
      (header.priv_offset ≥ input_len_u32 ∨
       input_len_u32 - header.priv_offset < header.priv_length) then .err
  else .ok (header, input)

/-- `WoffHeader::is_collection` from `types.rs`. -/
def WoffHeader.is_collection (h : WoffHeader) : Bool :=
  h.flavor == ttcfTag

/-! ## `types.rs`: collection directory -/

/-- `CollectionDirectoryEntry` from `types.rs`. -/
structure CollectionDirectoryEntry where
  flavor : Nat
  table_indices : List Nat
  head_idx : Option Nat
  hhea_idx : Option Nat
  glyf_idx : Option Nat
  loca_idx : Option Nat
  deriving Repr, DecidableEq

/-- Per-index loop of `CollectionDirectoryEntry::parse`.  The source bounds
check is `table_index as usize > tables.len()` (strict `>`), after which the
entry is fetched with `tables[table_index]`, a panicking `Vec` index:
an index equal to `tables.len()` passes the check and panics (`crash`). -/
def collectionEntryLoop (tables : List Woff2TableDirectoryEntry) :
    Nat → List Nat → List Nat → Option Nat → Option Nat → Option Nat → Option Nat →
    Res ((List Nat × Option Nat × Option Nat × Option Nat × Option Nat) × List Nat)
  | 0, input, indices, h, hh, g, l => .ok ((indices, h, hh, g, l), input)
  | n + 1, input, indices, h, hh, g, l => do
      let (table_index, input) ← tryGetVariable255U16 input
      if table_index > tables.length then .err
      else
        match tables.get? table_index with
        | none => .crash
        | some t =>
          let h  := if t.tag = headTag then some table_index else h
          let hh := if t.tag = hheaTag then some table_index else hh
          let g  := if t.tag = glyfTag then some table_index else g
          let l  := if t.tag = locaTag then some table_index else l
          collectionEntryLoop tables n input (indices ++ [table_index]) h hh g l

/-- `CollectionDirectoryEntry::parse` from `types.rs`. -/
def CollectionDirectoryEntry.parse (input : List Nat)
    (tables : List Woff2TableDirectoryEntry) :
    Res (CollectionDirectoryEntry × List Nat) := do
  let (num_tables, input) ← tryGetVariable255U16 input
  let (flavor, input) ← tryGetU32 input
  if num_tables = 0 then .err
  else
    let ((table_indices, head_idx, hhea_idx, glyf_idx, loca_idx), input) ←
      collectionEntryLoop tables num_tables input [] none none none none
    -- If we have both glyf and loca make sure they are consecutive
    -- Reject if we only have one
    match glyf_idx, loca_idx with
    | some gi, some li =>
        if gi > li ∨ li - gi ≠ 1 then .err
        else .ok ({ flavor, table_indices, head_idx, hhea_idx, glyf_idx, loca_idx }, input)
    | some _, none => .err
    | none, some _ => .err
    | none, none =>
        .ok ({ flavor, table_indices, head_idx, hhea_idx, glyf_idx, loca_idx }, input)

/-- `CollectionDirectory` from `types.rs`. -/
structure CollectionDirectory where
  version : Nat
  fonts : List CollectionDirectoryEntry
  deriving Repr, DecidableEq

/-- Font-entry loop of `CollectionDirectory::parse`. -/
def collectionDirGo (tables : List Woff2TableDirectoryEntry) :
    Nat → List Nat → List CollectionDirectoryEntry →
    Res (List CollectionDirectoryEntry × List Nat)
  | 0, input, acc => .ok (acc, input)
  | n + 1, input, acc => do
      let (font, input) ← CollectionDirectoryEntry.parse input tables
      collectionDirGo tables n input (acc ++ [font])

/-- `CollectionDirectory::parse` from `types.rs`. -/
def CollectionDirectory.parse (input : List Nat) (dir : Woff2TableDirectory) :
    Res (CollectionDirectory × List Nat) := do
  let (version, input) ← tryGetU32 input
  let (num_fonts, input) ← tryGetVariable255U16 input
  if version ≠ 0x00010000 ∧ version ≠ 0x00020000 then .err
  else if num_fonts = 0 then .err
  else do
    let (fonts, input) ← collectionDirGo dir.tables num_fonts input []
    .ok ({ version, fonts }, input)

/-- Helper for `CollectionDirectory::generate_for_single_font`: the source's
scan records, for each special tag, the index of the **last** directory entry
carrying it. -/
def lastIdxOfTag (tables : List Woff2TableDirectoryEntry) (tag : Nat) : Option Nat :=
  (List.enum tables).foldl
    (fun acc p => if p.2.tag = tag then some p.1 else acc) none

/-- `CollectionDirectory::generate_for_single_font` from `types.rs`. -/
def CollectionDirectory.generate_for_single_font (flavor : Nat)
    (dir : Woff2TableDirectory) : CollectionDirectory :=
  { version := 0x00010000,
    fonts := [{ flavor,
                table_indices := List.range dir.tables.length,
                head_idx := lastIdxOfTag dir.tables headTag,
                hhea_idx := lastIdxOfTag dir.tables hheaTag,
                glyf_idx := lastIdxOfTag dir.tables glyfTag,
                loca_idx := lastIdxOfTag dir.tables locaTag }] }

/-- C1: `is_transformed` is the predicate `format == 0` regardless of tag —
both match arms of the source test `format == 0`, so the rule for
`glyf`/`loca` entries and the rule for entries of every other tag coincide
(replacing the tag never changes the result). -/
theorem is_transformed_is_format_eq_zero :
    ∀ e : Woff2TableDirectoryEntry,
      e.is_transformed = (e.format == 0) ∧
      (∀ t, Woff2TableDirectoryEntry.is_transformed { e with tag := t } =
            e.is_transformed) := by
  intro e
  constructor
  · unfold Woff2TableDirectoryEntry.is_transformed
    split <;> rfl
  · intro t
    unfold Woff2TableDirectoryEntry.is_transformed
    split <;> split <;> rfl

/-- C3 counterexample: parsing the bytes `[0x40, 0x01, 0x02]` yields an
**untransformed** entry (tag `cmap`, format 1, so `is_transformed` is false)
with `orig_length = 1` and `woff_length = 2` and an empty remainder: the
parser consumed the byte `0x02` as a second UIntBase128 value even though the
entry is not transformed, contradicting the claim that an untransformed entry
consumes exactly one UIntBase128 length. -/
theorem woff2_entry_parse_untransformed_consumes_second_base128 :
    Woff2TableDirectoryEntry.parse [0x40, 0x01, 0x02] =
      Res.ok ({ tag := tagNat "cmap", format := 1, orig_length := 1,
                woff_offset := 0, woff_length := 2 }, []) ∧
    (Woff2TableDirectoryEntry.mk (tagNat "cmap") 1 1 0 2).is_transformed = false := by
  constructor
  · decide
  · decide

/-- C3 (amended): when parsing one WOFF2 table-directory entry, **two**
UIntBase128 values (original length, then length in the compressed stream)
are always read, whether or not the entry is transformed; the next entry
begins after the second one. -/
theorem woff2_entry_parse_always_two_base128
    (flags tag : Nat) (b1 b2 rest : List Nat) (v1 v2 : Nat)
    (htag : KNOWN_TABLE_TAGS.get? (flags &&& 63) = some tag)
    (hb1 : ∀ r, ReadBase128 (b1 ++ r) = Res.ok (v1, r))
    (hb2 : ∀ r, ReadBase128 (b2 ++ r) = Res.ok (v2, r))
    (hloca : tag = locaTag → v2 = 0) :
    Woff2TableDirectoryEntry.parse (flags :: (b1 ++ (b2 ++ rest))) =
      Res.ok ({ tag, format := (flags &&& 192) >>> 6, orig_length := v1,
                woff_offset := 0, woff_length := v2 }, rest) := by
  unfold Woff2TableDirectoryEntry.parse parse_flags tryGetVariable128U32
  simp only [tryGetU8, htag, Res.monad_bind_eq_bind, Res.bind_ok]
  rw [hb1 (b2 ++ rest)]
  simp only [Res.bind_ok]
  rw [hb2 rest]
  simp only [Res.bind_ok]
  by_cases h : tag = locaTag
  · have : v2 = 0 := hloca h
    subst this
    simp
  · simp [h]

/-- Witness for `woff2_entry_parse_always_two_base128` at a concrete input:
flag byte `0x40` (known tag 0 = `cmap`, format 1), original length 7,
stream length 9, two trailing bytes left for the next entry. -/
theorem woff2_entry_parse_always_two_base128_witness :
    Woff2TableDirectoryEntry.parse (0x40 :: ([7] ++ ([9] ++ [5, 5]))) =
      Res.ok ({ tag := tagNat "cmap", format := (0x40 &&& 192) >>> 6,
                orig_length := 7, woff_offset := 0, woff_length := 9 }, [5, 5]) :=
  woff2_entry_parse_always_two_base128 0x40 (tagNat "cmap") [7] [9] [5, 5] 7 9
    (by decide) (fun r => rfl) (fun r => rfl) (by decide)

/-- C5: collection-directory parsing does **not** reject every out-of-range
table index with an error.  The bounds check is `table_index > tables.len()`
(strict), so for a directory with exactly one shared table and a font entry
whose single table index is 1 (equal to the table count), the check passes
and the subsequent `tables[table_index]` `Vec` index panics (`crash`) —
an out-of-bounds access rather than an error return. -/
theorem collection_entry_parse_crashes_at_index_eq_count :
    CollectionDirectoryEntry.parse [1, 0, 1, 0, 0, 1]
      [{ tag := tagNat "cmap", format := 1, orig_length := 4,
         woff_offset := 0, woff_length := 4 }] = Res.crash := by
  decide

/-! ## `glyf_decoder.rs`: the transformed-`glyf` inverter -/

/-- `Point` from `lib.rs` (signed 32-bit coordinates during reconstruction). -/
structure Point where
  x : Int
  y : Int
  on_curve : Bool
  deriving Repr, DecidableEq

def GLYF_ON_CURVE : Nat := 1
def GLYF_X_SHORT : Nat := 2
def GLYF_Y_SHORT : Nat := 4
def GLYF_REPEAT : Nat := 8
def GLYF_THIS_X_IS_SAME : Nat := 16
def GLYF_THIS_Y_IS_SAME : Nat := 32
def OVERLAP_SIMPLE : Nat := 64

/-- A panicking `Vec`/slice index (`buf[i]`): `crash` when out of bounds. -/
def idxP (l : List Nat) (i : Nat) : Res Nat :=
  match l.get? i with
  | some v => .ok v
  | none   => .crash

/-- `bytes::Buf::advance` on `&[u8]`: drops `n` bytes, panicking (`crash`)
when fewer remain. -/
def advanceP (l : List Nat) (n : Nat) : Res (List Nat) :=
  if n ≤ l.length then .ok (l.drop n) else .crash

/-- Modelled from the spec: the `try_read_bytes_into` buffer extension (its
definition is not among the provided sources).  Per §4.1 every primitive read
fails cleanly when insufficient input remains; this one moves `n` bytes from
the source cursor onto the end of the destination buffer. -/
def tryReadBytesInto (n : Nat) (src dst : List Nat) : Res (List Nat × List Nat) :=
  if n ≤ src.length then .ok (src.drop n, dst ++ src.take n) else .err

/-- Wrapping 32-bit signed interpretation (release-mode `i32` arithmetic). -/
def wrap32 (z : Int) : Int :=
  ((z + 2147483648) % 4294967296) - 2147483648

/-- `with_sign` from `decode_triplet`: the low flag bit selects the sign. -/
def with_sign (flag : Nat) (baseval : Int) : Int :=
  if flag &&& 1 ≠ 0 then baseval else -baseval

/-- `safe_add` from `decode_triplet`: checked signed 32-bit addition;
overflow is a clean error. -/
def safe_add (a b : Int) : Res Int :=
  if (a > 0 ∧ b > 2147483647 - a) ∨ (a < 0 ∧ b < -2147483648 - a) then .err
  else .ok (a + b)

/-- Per-flag loop of `decode_triplet` from `glyf_decoder.rs`: classify the
low 7 flag bits into the five arithmetic cases, consume the corresponding
data bytes, and update the running coordinates with checked addition. -/
def decodeTripletGo : List Nat → List Nat → Nat → Int → Int → List Point →
    Res (List Point × Nat)
  | [], _, triplet_index, _, _, acc => .ok (acc, triplet_index)
  | flagByte :: flagsRest, inBytes, triplet_index, x, y, acc => do
      let on_curve := flagByte >>> 7 = 0
      let flag := flagByte &&& 0x7f
      let n_data_bytes : Nat :=
        if flag < 84 then 1 else if flag < 120 then 2 else if flag < 124 then 3 else 4
      if triplet_index + n_data_bytes > 18446744073709551615 ∨
          triplet_index + n_data_bytes > inBytes.length then .err
      else do
        let (dx, dy) ←
          if flag < 10 then do
            let b0 ← idxP inBytes triplet_index
            Res.ok ((0 : Int), with_sign flag ((((flag &&& 14) <<< 7) + b0 : Nat) : Int))
          else if flag < 20 then do
            let b0 ← idxP inBytes triplet_index
            Res.ok (with_sign flag (((((flag - 10) &&& 14) <<< 7) + b0 : Nat) : Int), (0 : Int))
          else if flag < 84 then do
            let b0 := flag - 20
            let b1 ← idxP inBytes triplet_index
            Res.ok (with_sign flag ((1 + (b0 &&& 0x30) + (b1 >>> 4) : Nat) : Int),
                    with_sign (flag >>> 1) ((1 + ((b0 &&& 0x0c) <<< 2) + (b1 &&& 0x0f) : Nat) : Int))
          else if flag < 120 then do
            let b0 := flag - 84
            let c0 ← idxP inBytes triplet_index
            let c1 ← idxP inBytes (triplet_index + 1)
            Res.ok (with_sign flag ((1 + ((b0 / 12) <<< 8) + c0 : Nat) : Int),
                    with_sign (flag >>> 1) ((1 + (((b0 % 12) >>> 2) <<< 8) + c1 : Nat) : Int))
          else if flag < 124 then do
            let c0 ← idxP inBytes triplet_index
            let b2 ← idxP inBytes (triplet_index + 1)
            let c2 ← idxP inBytes (triplet_index + 2)
            Res.ok (with_sign flag (((c0 <<< 4) + (b2 >>> 4) : Nat) : Int),
                    with_sign (flag >>> 1) ((((b2 &&& 0x0f) <<< 8) + c2 : Nat) : Int))
          else do
            let c0 ← idxP inBytes triplet_index
            let c1 ← idxP inBytes (triplet_index + 1)
            let c2 ← idxP inBytes (triplet_index + 2)
            let c3 ← idxP inBytes (triplet_index + 3)
            Res.ok (with_sign flag (((c0 <<< 8) + c1 : Nat) : Int),
                    with_sign (flag >>> 1) (((c2 <<< 8) + c3 : Nat) : Int))
        let x ← safe_add x dx
        let y ← safe_add y dy
        decodeTripletGo flagsRest inBytes (triplet_index + n_data_bytes) x y
          (acc ++ [{ x, y, on_curve }])

/-- `decode_triplet` from `glyf_decoder.rs`.  Returns the decoded points and
the number of bytes consumed from the coordinate stream. -/
def decode_triplet (flags_in in_bytes : List Nat) : Res (List Point × Nat) :=
  if flags_in.length > in_bytes.length then .err
  else decodeTripletGo flags_in in_bytes 0 0 0 []

/-- Flag-byte computation inside the per-point loop of `write_glyph_points`:
on-curve bit, overlap bit on the first point, and the short/same x/y cases
chosen from the deltas to the previous point. -/
def wgpFlag (p : Point) (last_x last_y : Int) (overlapFirst : Bool) : Nat :=
  let flag := if p.on_curve then GLYF_ON_CURVE else 0
  let flag := if overlapFirst then flag ||| OVERLAP_SIMPLE else flag
  let dx := wrap32 (p.x - last_x)
  let flag :=
    if dx = 0 then flag ||| GLYF_THIS_X_IS_SAME
    else if -256 < dx ∧ dx < 256 then
      flag ||| GLYF_X_SHORT ||| (if dx > 0 then GLYF_THIS_X_IS_SAME else 0)
    else flag
  let dy := wrap32 (p.y - last_y)
  if dy = 0 then flag ||| GLYF_THIS_Y_IS_SAME
  else if -256 < dy ∧ dy < 256 then
    flag ||| GLYF_Y_SHORT ||| (if dy > 0 then GLYF_THIS_Y_IS_SAME else 0)
  else flag

/-- Flag loop of `write_glyph_points` from `glyf_decoder.rs`, transcribed
byte for byte: `last_flag` starts at `u8::MAX` (255), and on every iteration
whose flag differs from `last_flag` (or saturates the repeat counter) the
**previous** `last_flag` is emitted — bare, or as the pair
`(last_flag | REPEAT, count)`.  After the loop the final buffered flag is
emitted the same way. -/
def wgpFlagsGo : List Point → Nat → Bool → Nat → Nat → Int → Int → List Nat → List Nat
  | [], _, _, last_flag, repeat_count, _, _, out =>
      -- Write final flag
      if repeat_count > 0 then out ++ [last_flag ||| GLYF_REPEAT, repeat_count]
      else out ++ [last_flag]
  | p :: rest, i, has_overlap_bit, last_flag, repeat_count, last_x, last_y, out =>
      let flag := wgpFlag p last_x last_y (has_overlap_bit ∧ i = 0)
      let out :=
        if flag = last_flag ∧ repeat_count < 255 then out
        else if repeat_count > 0 then out ++ [last_flag ||| GLYF_REPEAT, repeat_count]
        else out ++ [last_flag]
      let repeat_count := if flag = last_flag ∧ repeat_count < 255 then repeat_count + 1 else 0
      wgpFlagsGo rest (i + 1) has_overlap_bit flag repeat_count p.x p.y out

/-- X-coordinate loop of `write_glyph_points`. -/
def wgpXGo : List Point → Int → List Nat → List Nat
  | [], _, out => out
  | p :: rest, last_x, out =>
      let dx := wrap32 (p.x - last_x)
      let out :=
        if dx = 0 then out
        else if -256 < dx ∧ dx < 256 then out ++ [dx.natAbs % 256]
        else out ++ i16Bytes dx
      wgpXGo rest (wrap32 (last_x + dx)) out

/-- Y-coordinate loop of `write_glyph_points`. -/
def wgpYGo : List Point → Int → List Nat → List Nat
  | [], _, out => out
  | p :: rest, last_y, out =>
      let dy := wrap32 (p.y - last_y)
      let out :=
        if dy = 0 then out
        else if -256 < dy ∧ dy < 256 then out ++ [dy.natAbs % 256]
        else out ++ i16Bytes dy
      wgpYGo rest (wrap32 (last_y + dy)) out

/-- `write_glyph_points` from `glyf_decoder.rs`: run-length-compressed flag
bytes, then the x coordinates, then the y coordinates.  (The source returns
`Result` but has no failing path.) -/
def write_glyph_points (points : List Point) (has_overlap_bit : Bool) : List Nat :=
  wgpYGo points 0 (wgpXGo points 0 (wgpFlagsGo points 0 has_overlap_bit 255 0 0 0 []))

/-- `write_bbox` from `glyf_decoder.rs`: min/max over the decoded points
(0 for an empty point list), written as four big-endian `i16`s. -/
def write_bbox (points : List Point) : List Nat :=
  match points with
  | [] => i16Bytes 0 ++ i16Bytes 0 ++ i16Bytes 0 ++ i16Bytes 0
  | p0 :: rest =>
      let x_min := rest.foldl (fun m q => min m q.x) p0.x
      let x_max := rest.foldl (fun m q => max m q.x) p0.x
      let y_min := rest.foldl (fun m q => min m q.y) p0.y
      let y_max := rest.foldl (fun m q => max m q.y) p0.y
      i16Bytes x_min ++ i16Bytes y_min ++ i16Bytes x_max ++ i16Bytes y_max

/-- `compute_size_of_composite` from `glyf_decoder.rs`: walk the composite
stream until `MORE_COMPONENTS` clears, summing the per-component argument
sizes; notes whether any component has `WE_HAVE_INSTRUCTIONS`.  The
`advance(arg_size)` on the stream panics (`crash`) past the end. -/
def computeSizeOfCompositeGo (stream : List Nat) (bytes_read : Nat)
    (have_instr : Bool) : Res (Nat × Bool × List Nat) :=
  match stream with
  | b0 :: b1 :: rest =>
      let flags := b0 * 256 + b1
      let have_instr := have_instr || decide (flags &&& 256 ≠ 0)
      let arg_size : Nat :=
        (if flags &&& 1 ≠ 0 then 6 else 4) +
        (if flags &&& 8 ≠ 0 then 2
         else if flags &&& 64 ≠ 0 then 4
         else if flags &&& 128 ≠ 0 then 8
         else 0)
      if arg_size ≤ rest.length then
        let bytes_read := bytes_read + 2 + arg_size
        if flags &&& 32 ≠ 0 then
          computeSizeOfCompositeGo (rest.drop arg_size) bytes_read have_instr
        else .ok (bytes_read, have_instr, rest.drop arg_size)
      else .crash
  | _ => .err
  termination_by stream.length
  decreasing_by simp [List.length_drop]; omega

/-- `compute_size_of_composite` (the `while` loop starts with a synthetic
`MORE_COMPONENTS` flag, i.e. the body always runs at least once). -/
def compute_size_of_composite (stream : List Nat) : Res (Nat × Bool × List Nat) :=
  computeSizeOfCompositeGo stream 0 false

/-- The substream cursors of `GlyfDecoder` from `glyf_decoder.rs`. -/
structure GlyfStreams where
  n_contour_stream : List Nat
  n_points_stream : List Nat
  flag_stream : List Nat
  glyph_stream : List Nat
  composite_stream : List Nat
  bbox_bitmap : List Nat
  bbox_stream : List Nat
  instruction_stream : List Nat
  overlap_bitmap : Option (List Nat)
  deriving Repr, DecidableEq

/-- Substream-slicing loop of `GlyfDecoder::new`: read seven `u32` sizes and
carve consecutive substreams out of `data` starting at offset 36. -/
def substreamsGo (data : List Nat) : Nat → List Nat → Nat → List (List Nat) →
    Res (List (List Nat) × Nat)
  | 0, _, offset, acc => .ok (acc, offset)
  | n + 1, input, offset, acc => do
      let (substream_size, input) ← tryGetU32 input
      if substream_size > data.length - offset then .err
      else
        substreamsGo data n input (offset + substream_size)
          (acc ++ [(data.drop offset).take substream_size])

/-- `GlyfDecoder::new` from `glyf_decoder.rs`: fixed glyf-transform header
(reserved, flags, glyph count, index format), seven substreams, the
bbox-bitmap/bbox-stream split, and the optional overlap bitmap.  The source
slices the overlap bitmap out of `data` **before** checking its length
against the remaining bytes, so an over-long overlap bitmap is a panicking
slice (`crash`), not an error. -/
def glyfDecoderNew (data : List Nat) : Res (GlyfStreams × Nat × Nat) := do
  let input := data
  let (_reserved, input) ← tryGetU16 input
  let (flags, input) ← tryGetU16 input
  let has_overlap_bitmap := flags &&& 1 ≠ 0
  let (num_glyphs, input) ← tryGetU16 input
  let (index_format, input) ← tryGetU16 input
  let offset : Nat := (2 + 7) * 4
  if offset > data.length then .err
  else do
    let (substreams, offset) ← substreamsGo data 7 input offset []
    match substreams with
    | [s0, s1, s2, s3, s4, s5, s6] => do
        let bitmap_length := ((num_glyphs + 31) >>> 5) <<< 2
        if bitmap_length > s5.length then .err
        else do
          let overlap_bitmap ←
            if has_overlap_bitmap then
              let overlap_bitmap_length := (num_glyphs + 7) >>> 3
              if offset + overlap_bitmap_length ≤ data.length then
                if overlap_bitmap_length > data.length - offset then Res.err
                else Res.ok (some ((data.drop offset).take overlap_bitmap_length))
              else Res.crash
            else Res.ok none
          Res.ok ({ n_contour_stream := s0, n_points_stream := s1, flag_stream := s2,
                    glyph_stream := s3, composite_stream := s4,
                    bbox_bitmap := s5.take bitmap_length,
                    bbox_stream := s5.drop bitmap_length,
                    instruction_stream := s6, overlap_bitmap : GlyfStreams },
                  num_glyphs, index_format)
    | _ => Res.crash

/-- Contour-count loop of `parse_simple_glyph`: read the per-contour
255UInt16 point counts, guarding the running `u32` total against overflow. -/
def readNPointsGo : Nat → List Nat → List Nat → Nat → Res (List Nat × Nat × List Nat)
  | 0, stream, vec, total => .ok (vec, total, stream)
  | n + 1, stream, vec, total => do
      let (n_points_contour, stream) ← tryGetVariable255U16 stream
      let vec := vec ++ [n_points_contour]
      if total + n_points_contour > 4294967295 then .err
      else readNPointsGo n stream vec (total + n_points_contour)

/-- End-point loop of `parse_simple_glyph`: the running point index
(starting at −1) per contour, rejected at 65536, written as `u16`. -/
def endpointsGo : List Nat → Int → List Nat → Res (List Nat)
  | [], _, out => .ok out
  | c :: rest, end_point, out =>
      let end_point := end_point + (c : Int)
      if end_point ≥ 65536 then .err
      else endpointsGo rest end_point (out ++ be16 ((end_point % 65536).toNat))

/-- `GlyfDecoder::parse_simple_glyph` from `glyf_decoder.rs`. -/
def parse_simple_glyph (s : GlyfStreams) (n_contours : Int)
    (glyph_has_bbox has_overlap_bit : Bool) : Res (GlyfStreams × List Nat) := do
  let n := n_contours.toNat
  let (n_points_vec, total_n_points, nps) ← readNPointsGo n s.n_points_stream [] 0
  let s := { s with n_points_stream := nps }
  let flag_size := total_n_points
  if flag_size > s.flag_stream.length then .err
  else do
    let flags_buf := s.flag_stream.take flag_size
    let triplet_buf := s.glyph_stream
    let (points, triplet_bytes_consumed) ← decode_triplet flags_buf triplet_buf
    let fs ← advanceP s.flag_stream flag_size
    let gs ← advanceP s.glyph_stream triplet_bytes_consumed
    let s := { s with flag_stream := fs, glyph_stream := gs }
    let (instruction_size, gs2) ← tryGetVariable255U16 s.glyph_stream
    let s := { s with glyph_stream := gs2 }
    if total_n_points ≥ 134217728 ∨ instruction_size ≥ 1073741824 then .err
    else do
      let buf := i16Bytes n_contours
      let (s, buf) ←
        if glyph_has_bbox then do
          let (bs, buf) ← tryReadBytesInto 8 s.bbox_stream buf
          Res.ok ({ s with bbox_stream := bs }, buf)
        else Res.ok (s, buf ++ write_bbox points)
      let buf ← endpointsGo n_points_vec (-1) buf
      let buf := buf ++ be16 instruction_size
      let (is2, buf) ← tryReadBytesInto instruction_size s.instruction_stream buf
      let s := { s with instruction_stream := is2 }
      Res.ok (s, buf ++ write_glyph_points points has_overlap_bit)

/-- `GlyfDecoder::parse_composite_glyph` from `glyf_decoder.rs`: size the
composite record on a read-only cursor, read an optional 255UInt16
instruction length from the glyph stream, then emit contour count −1, the
8 explicit bbox bytes, the verbatim composite bytes and the instructions. -/
def parse_composite_glyph (s : GlyfStreams) : Res (GlyfStreams × List Nat) := do
  let (composite_size, have_instructions, _ro) ←
    compute_size_of_composite s.composite_stream
  let (instruction_size, gs) ←
    if have_instructions then tryGetVariable255U16 s.glyph_stream
    else Res.ok (0, s.glyph_stream)
  let s := { s with glyph_stream := gs }
  let buf := i16Bytes (-1)
  let (bs, buf) ← tryReadBytesInto 8 s.bbox_stream buf
  let s := { s with bbox_stream := bs }
  let (cs, buf) ← tryReadBytesInto composite_size s.composite_stream buf
  let s := { s with composite_stream := cs }
  if have_instructions then do
    let buf := buf ++ be16 instruction_size
    let (is2, buf) ← tryReadBytesInto instruction_size s.instruction_stream buf
    Res.ok ({ s with instruction_stream := is2 }, buf)
  else Res.ok (s, buf)

/-- Accumulators of `GlyfDecoder::transform`.  `loca_values` journals the
pushed `glyf_table.len()` values before their `as u32` cast; the cast is
applied where the vector is consumed (`generate_loca_table`), so the emitted
bytes are identical to the source's. -/
structure GAcc where
  glyf_table : List Nat
  loca_values : List Nat
  x_mins : List Int
  glyf_checksum : Nat
  deriving Repr, DecidableEq

/-- Stream-side work of one iteration of the per-glyph loop of
`GlyfDecoder::transform`: read the contour count, test the glyph's
explicit-bbox bit (a panicking index into the bbox bitmap), and dispatch on
composite/simple/empty to produce the glyph buffer. -/
def glyphBranch (s : GlyfStreams) (i : Nat) :
    Res (GlyfStreams × Int × List Nat) := do
  let (n_contours, ncs) ← tryGetI16 s.n_contour_stream
  let s := { s with n_contour_stream := ncs }
  let bbByte ←
    match s.bbox_bitmap.get? (i >>> 3) with
    | some b => Res.ok b
    | none   => Res.crash
  let glyph_has_bbox := bbByte &&& (128 >>> (i &&& 7)) ≠ 0
  let (s, glyph_buf) ←
    if n_contours = -1 then
      -- composite glyphs must have an explicit bbox
      if ¬ glyph_has_bbox then Res.err
      else parse_composite_glyph s
    else if n_contours > 0 then do
      let has_overlap_bit ←
        match s.overlap_bitmap with
        | none => Res.ok false
        | some bm =>
            match bm.get? (i >>> 3) with
            | some b => Res.ok (decide (b &&& (128 >>> (i &&& 7)) ≠ 0))
            | none   => Res.crash
      parse_simple_glyph s n_contours glyph_has_bbox (has_overlap_bit = true)
    else
      -- n_contours == 0; empty glyph. Must NOT have a bbox.
      if glyph_has_bbox then Res.err else Res.ok (s, [])
  Res.ok (s, n_contours, glyph_buf)

/-- One iteration of the per-glyph loop of `GlyfDecoder::transform`: push the
current `glyf` length onto `loca_values`, run `glyphBranch`, fold the glyph
checksum, append the padded glyph bytes, and record `x_min` (bytes 2..4 of
the glyph buffer) — the source does that **only when `n_contours > 0`**,
i.e. only for non-empty simple glyphs. -/
def processGlyph (s : GlyfStreams) (acc : GAcc) (i : Nat) :
    Res (GlyfStreams × GAcc) :=
  Res.bind (glyphBranch s i) fun r =>
    let s2 := r.1
    let n_contours := r.2.1
    let glyph_buf := r.2.2
    let glyf_checksum := (acc.glyf_checksum + compute_checksum glyph_buf) % 4294967296
    let glyf_table := pad4 (acc.glyf_table ++ glyph_buf)
    let xminsRes : Res (List Int) :=
      if n_contours > 0 then
        match glyph_buf.get? 2, glyph_buf.get? 3 with
        | some b2, some b3 => Res.ok (acc.x_mins ++ [toI16 (b2 * 256 + b3)])
        | _, _ => Res.crash
      else Res.ok acc.x_mins
    Res.bind xminsRes fun x_mins =>
      Res.ok (s2, { glyf_table, loca_values := acc.loca_values ++ [acc.glyf_table.length],
                    x_mins, glyf_checksum })

/-- The glyph loop of `GlyfDecoder::transform` (`for i in 0..num_glyphs`). -/
def transformGo (s : GlyfStreams) (acc : GAcc) (i remaining : Nat) : Res GAcc :=
  match remaining with
  | 0 => .ok acc
  | r + 1 =>
      match processGlyph s acc i with
      | .ok (s2, acc2) => transformGo s2 acc2 (i + 1) r
      | .err => .err
      | .crash => .crash

/-- `generate_loca_table` from `glyf_decoder.rs`: long format stores each
offset as a `u32`; short format stores `(value >> 1) as u16`. -/
def generate_loca_table (loca_values : List Nat) (index_format : Nat) :
    Res (List Nat × Nat) :=
  let loca_size := loca_values.length
  if ((loca_size <<< 2) % 18446744073709551616) >>> 2 ≠ loca_size then .err
  else
    let loca_content :=
      if index_format ≠ 0 then
        (loca_values.map fun v => be32 (v % 4294967296)).flatten
      else
        (loca_values.map fun v => be16 (((v % 4294967296) >>> 1) % 65536)).flatten
    .ok (loca_content, compute_checksum loca_content)

/-- `GlyfAndLocaData` from `glyf_decoder.rs`, plus the `loca_values` vector
itself (local in the source, kept here so theorems can speak about the
recorded offsets). -/
structure GlyfAndLocaData where
  num_glyphs : Nat
  index_format : Nat
  x_mins : List Int
  glyf_table : List Nat
  glyf_checksum : Nat
  loca_table : List Nat
  loca_checksum : Nat
  loca_values : List Nat
  deriving Repr, DecidableEq

/-- `tranform_glyf_table` (sic) from `glyf_decoder.rs`:
`GlyfDecoder::new(data)?.transform()`. -/
def tranform_glyf_table (data : List Nat) : Res GlyfAndLocaData := do
  let (s, num_glyphs, index_format) ← glyfDecoderNew data
  let acc ← transformGo s { glyf_table := [], loca_values := [], x_mins := [], glyf_checksum := 0 } 0 num_glyphs
  -- loca[n] will be equal the length of the glyph data ('glyf') table
  let loca_values := acc.loca_values ++ [acc.glyf_table.length]
  let (loca_table, loca_checksum) ← generate_loca_table loca_values index_format
  Res.ok { num_glyphs, index_format, x_mins := acc.x_mins,
           glyf_table := acc.glyf_table, glyf_checksum := acc.glyf_checksum,
           loca_table, loca_checksum, loca_values }

/-! ## `hmtx_decoder.rs`: the transformed-`hmtx` inverter -/

/-- `HmtxData` from `hmtx_decoder.rs`. -/
structure HmtxData where
  num_glyphs : Nat
  num_hmetrics : Nat
  advance_widths : List Nat
  lsbs : List Int
  deriving Repr, DecidableEq

/-- Advance-width loop of `decode_hmtx_table`: `num_hmetrics` big-endian
`u16` reads. -/
def readU16sGo : Nat → List Nat → List Nat → Res (List Nat × List Nat)
  | 0, input, acc => .ok (acc, input)
  | n + 1, input, acc => do
      let (v, input) ← tryGetU16 input
      readU16sGo n input (acc ++ [v])

/-- Lsb loop of `decode_hmtx_table`: when `readLsb` is set, read a signed
16-bit value; otherwise substitute `x_mins[i]` (a panicking index). -/
def lsbsGo (readLsb : Bool) (x_mins : List Int) :
    Nat → Nat → List Nat → List Int → Res (List Int × List Nat)
  | _, 0, input, acc => .ok (acc, input)
  | i, n + 1, input, acc => do
      let (v, input) ←
        if readLsb then tryGetI16 input
        else
          match x_mins.get? i with
          | some xm => Res.ok (xm, input)
          | none    => Res.crash
      lsbsGo readLsb x_mins (i + 1) n input (acc ++ [v])

/-- `decode_hmtx_table` from `hmtx_decoder.rs`.  Note the source's
`assert!(x_mins.len() == num_glyphs as usize)` (its comment: *"Should always
be true (regardless of input data) unless we've made a programming error"*),
which is a panic (`crash`), not an error return. -/
def decode_hmtx_table (input : List Nat) (num_glyphs num_hmetrics : Nat)
    (x_mins : List Int) : Res HmtxData := do
  let (hmtx_flags, input) ← tryGetU8 input
  let has_proportional_lsbs := hmtx_flags &&& 1 = 0
  let has_monospace_lsbs := hmtx_flags &&& 2 = 0
  -- Bits 2-7 are reserved and MUST be zero.
  if hmtx_flags &&& 0xFC ≠ 0 then .err
  -- you say you transformed but there is little evidence of it
  else if has_proportional_lsbs ∧ has_monospace_lsbs then .err
  else if x_mins.length ≠ num_glyphs then .crash
  else if num_hmetrics > num_glyphs then .err
  else if num_hmetrics < 1 then .err
  else do
    let (advance_widths, input) ← readU16sGo num_hmetrics input []
    let (lsbs, input) ← lsbsGo (decide has_proportional_lsbs) x_mins 0 num_hmetrics input []
    let (lsbs, _input) ←
      lsbsGo (decide has_monospace_lsbs) x_mins num_hmetrics (num_glyphs - num_hmetrics) input lsbs
    Res.ok { num_glyphs, num_hmetrics, advance_widths, lsbs }

/-- Glyph loop of `generate_hmtx_table` (indexing panics modelled). -/
def genHmtxGo (h : HmtxData) : Nat → Nat → List Nat → Res (List Nat)
  | _, 0, out => .ok out
  | i, n + 1, out => do
      let out ←
        if i < h.num_hmetrics then
          match h.advance_widths.get? i with
          | some w => Res.ok (out ++ be16 w)
          | none   => Res.crash
        else Res.ok out
      let out ←
        match h.lsbs.get? i with
        | some v => Res.ok (out ++ i16Bytes v)
        | none   => Res.crash
      genHmtxGo h (i + 1) n out

/-- `generate_hmtx_table` from `hmtx_decoder.rs`: standard `hmtx` layout,
`num_hmetrics × (advance u16, lsb i16)` then the remaining lsbs. -/
def generate_hmtx_table (h : HmtxData) : Res (List Nat) :=
  genHmtxGo h 0 h.num_glyphs []

/-- A transformed-`glyf` payload whose single glyph is empty (contour count
0, explicit-bbox bit clear): header `[reserved, flags=0, num_glyphs=1,
index_format=0]`, substream lengths `[2,0,0,0,0,4,0]`, an `nContourStream`
of `[0,0]` and a 4-byte bbox bitmap of zeros. -/
def glyfOneEmptyGlyph : List Nat :=
  [0, 0, 0, 0, 0, 1, 0, 0,
   0, 0, 0, 2, 0, 0, 0, 0, 0, 0, 0, 0, 0, 0, 0, 0, 0, 0, 0, 0, 0, 0, 0, 4, 0, 0, 0, 0,
   0, 0,
   0, 0, 0, 0]

/-- C4: the glyf inverter does **not** produce one `x_min` per glyph.  The
source pushes onto `x_mins` only when `n_contours > 0`, so composite and
empty glyphs get no entry: decoding `glyfOneEmptyGlyph` succeeds with
`num_glyphs = 1` but an empty `x_mins` vector — and feeding that pair to
`decode_hmtx_table` trips its own `assert!(x_mins.len() == num_glyphs)`,
a panic (`crash`), exactly the "programming error" the assert guards. -/
theorem glyf_xmins_skips_empty_and_composite_glyphs :
    tranform_glyf_table glyfOneEmptyGlyph =
      Res.ok { num_glyphs := 1, index_format := 0, x_mins := [],
               glyf_table := [], glyf_checksum := 0,
               loca_table := [0, 0, 0, 0], loca_checksum := 0,
               loca_values := [0, 0] } ∧
    decode_hmtx_table [1] 1 1 [] = Res.crash := by
  exact ⟨by decide, by decide⟩

/-- C7: the flag bytes emitted by `write_glyph_points` are **not** exactly
the run-length encoding of the per-point flags.  `last_flag` is initialised
to the sentinel `u8::MAX`; on the first iteration the flag necessarily
differs from the sentinel, and the emit-previous branch writes the sentinel
itself.  For a single on-curve point at (0,0) — whose only flag byte is
`0x31` (ON_CURVE | X_SAME | Y_SAME) — the code emits `[0xFF, 0x31]`: a
leading `0xFF` byte that derives from no point, ahead of the real flag. -/
theorem write_glyph_points_emits_sentinel_before_first_flag :
    write_glyph_points [{ x := 0, y := 0, on_curve := true }] false = [0xFF, 0x31] := by
  decide

/-! ## The loca invariants (claim C9) -/

theorem Res.bind_eq_ok {α β : Type} {x : Res α} {f : α → Res β} {b : β} :
    Res.bind x f = Res.ok b ↔ ∃ a, x = Res.ok a ∧ f a = Res.ok b := by
  cases x <;> simp [Res.bind]

theorem Round4_ge (n : Nat) : n ≤ Round4 n := by
  unfold Round4; split <;> omega

theorem Round4_mod4 (n : Nat) (h : n + 3 ≤ 18446744073709551615) :
    Round4 n % 4 = 0 := by
  unfold Round4
  rw [if_pos h]
  omega

theorem pad4_length (l : List Nat) : (pad4 l).length = Round4 l.length := by
  have := Round4_ge l.length
  simp [pad4]
  omega

/-- What one glyph iteration does to the accumulators: it records the
pre-glyph `glyf` length in `loca_values` and extends the `glyf` table by the
glyph's bytes, padded to a multiple of four. -/
theorem processGlyph_spec {s : GlyfStreams} {acc : GAcc} {i : Nat}
    {s2 : GlyfStreams} {acc2 : GAcc}
    (h : processGlyph s acc i = Res.ok (s2, acc2)) :
    acc2.loca_values = acc.loca_values ++ [acc.glyf_table.length] ∧
    ∃ b, acc2.glyf_table = pad4 (acc.glyf_table ++ b) := by
  unfold processGlyph at h
  cases hb : glyphBranch s i with
  | err => rw [hb] at h; simp [Res.bind] at h
  | crash => rw [hb] at h; simp [Res.bind] at h
  | ok r =>
      rw [hb] at h
      simp only [Res.bind_ok] at h
      rw [Res.bind_eq_ok] at h
      obtain ⟨xm, -, h⟩ := h
      cases h
      exact ⟨rfl, r.2.2, rfl⟩

/-- Loop invariant of the glyph loop: the `glyf` table only grows, one
`loca_values` entry is pushed per glyph, the recorded values stay bounded by
the table length and sorted, and — as long as the final table length does not
exhaust `usize` (so that every `Round4` rounding in the run really rounds
up) — table lengths and recorded values stay multiples of four. -/
theorem transformGo_inv (rem : Nat) :
    ∀ s acc i acc2, transformGo s acc i rem = Res.ok acc2 →
      acc.glyf_table.length ≤ acc2.glyf_table.length ∧
      acc2.loca_values.length = acc.loca_values.length + rem ∧
      ((∀ v ∈ acc.loca_values, v ≤ acc.glyf_table.length) →
        List.Sorted (· ≤ ·) acc.loca_values →
        (∀ v ∈ acc2.loca_values, v ≤ acc2.glyf_table.length) ∧
        List.Sorted (· ≤ ·) acc2.loca_values) ∧
      (acc2.glyf_table.length + 3 ≤ 18446744073709551615 →
        acc.glyf_table.length % 4 = 0 →
        (∀ v ∈ acc.loca_values, v % 4 = 0) →
        acc2.glyf_table.length % 4 = 0 ∧ (∀ v ∈ acc2.loca_values, v % 4 = 0)) := by
  induction rem with
  | zero =>
      intro s acc i acc2 h
      simp only [transformGo] at h
      cases h
      exact ⟨le_rfl, by omega, fun h1 h2 => ⟨h1, h2⟩, fun _ h1 h2 => ⟨h1, h2⟩⟩
  | succ r ih =>
      intro s acc i acc2 h
      rw [transformGo] at h
      cases hp : processGlyph s acc i with
      | err => rw [hp] at h; cases h
      | crash => rw [hp] at h; cases h
      | ok pr =>
          obtain ⟨s1, acc1⟩ := pr
          rw [hp] at h
          obtain ⟨hlv, b, htb⟩ := processGlyph_spec hp
          obtain ⟨ihle, ihlen, ihmono, ihmod⟩ := ih s1 acc1 (i + 1) acc2 h
          have hlen1 : acc1.glyf_table.length = Round4 (acc.glyf_table ++ b).length := by
            rw [htb, pad4_length]
          have hge : acc.glyf_table.length ≤ acc1.glyf_table.length := by
            have h1 := Round4_ge (acc.glyf_table ++ b).length
            have h2 : acc.glyf_table.length ≤ (acc.glyf_table ++ b).length := by
              simp
            omega
          refine ⟨le_trans hge ihle, by rw [ihlen, hlv]; simp; omega, ?_, ?_⟩
          · intro hbd hsort
            apply ihmono
            · intro v hv
              rw [hlv] at hv
              rcases List.mem_append.mp hv with hv | hv
              · exact le_trans (hbd v hv) hge
              · simp at hv; subst hv; exact hge
            · rw [hlv]
              show List.Pairwise (· ≤ ·) (acc.loca_values ++ [acc.glyf_table.length])
              rw [List.pairwise_append]
              refine ⟨hsort, List.pairwise_singleton _ _, ?_⟩
              intro x hx y hy
              simp at hy; subst hy
              exact hbd x hx
          · intro hfin hmod4 hvals
            have hguard : (acc.glyf_table ++ b).length + 3 ≤ 18446744073709551615 := by
              have h1 := Round4_ge (acc.glyf_table ++ b).length
              omega
            have hmod1 : acc1.glyf_table.length % 4 = 0 := by
              rw [hlen1]; exact Round4_mod4 _ hguard
            apply ihmod hfin hmod1
            intro v hv
            rw [hlv] at hv
            rcases List.mem_append.mp hv with hv | hv
            · exact hvals v hv
            · simp at hv; subst hv; exact hmod4

theorem length_flatten_map_const {α : Type} (f : α → List Nat) (k : Nat)
    (hf : ∀ a, (f a).length = k) :
    ∀ l : List α, ((l.map f).flatten).length = k * l.length := by
  intro l
  induction l with
  | nil => simp
  | cons a t ih => simp [ih, hf, Nat.mul_succ]; omega

/-- C9: the loca invariants.  For every input on which the transformed-glyf
inverter succeeds: the synthesized `loca` table has exactly
`(index_format == 0 ? 2 : 4) * (num_glyphs + 1)` bytes; the recorded offsets
(one per glyph plus the final entry) number `num_glyphs + 1`, end in the
reconstructed `glyf` table's length, and are monotonically non-decreasing;
and every recorded offset is even — each glyph entry is padded to 4 bytes —
so halving it for the short format (`offset >> 1`) loses nothing
(`2 * (v >>> 1) = v`).  The hypothesis `hsz` is the `usize` guard of
`Round4!` (`len + 3` must not overflow 64 bits, true of every realizable
buffer), under which every per-glyph padding really rounds up. -/
theorem loca_table_invariants (data : List Nat) (r : GlyfAndLocaData)
    (h : tranform_glyf_table data = Res.ok r)
    (hsz : r.glyf_table.length + 3 ≤ 18446744073709551615) :
    r.loca_table.length = (if r.index_format = 0 then 2 else 4) * (r.num_glyphs + 1) ∧
    r.loca_values.length = r.num_glyphs + 1 ∧
    r.loca_values.getLast? = some r.glyf_table.length ∧
    List.Sorted (· ≤ ·) r.loca_values ∧
    (∀ v ∈ r.loca_values, v % 2 = 0 ∧ 2 * (v >>> 1) = v) := by
  unfold tranform_glyf_table at h
  simp only [Res.monad_bind_eq_bind, Res.bind_eq_ok] at h
  obtain ⟨⟨s, ng, fmt⟩, hnew, h⟩ := h
  obtain ⟨acc, htr, h⟩ := h
  obtain ⟨⟨lt, lc⟩, hloca, h⟩ := h
  cases h
  obtain ⟨hle, hlen, hmono, hmod⟩ :=
    transformGo_inv ng s
      { glyf_table := [], loca_values := [], x_mins := [], glyf_checksum := 0 }
      0 acc htr
  simp only [List.length_nil] at hlen
  have hmono2 := hmono (by intro v hv; cases hv) (List.sorted_nil)
  obtain ⟨hbd, hsort⟩ := hmono2
  have hmod2 := hmod hsz (by simp) (by intro v hv; cases hv)
  obtain ⟨hm4, hv4⟩ := hmod2
  unfold generate_loca_table at hloca
  dsimp only at hloca
  by_cases hg :
      ((((acc.loca_values ++ [acc.glyf_table.length]).length <<< 2) %
          18446744073709551616) >>> 2) ≠
        (acc.loca_values ++ [acc.glyf_table.length]).length
  · rw [if_pos hg] at hloca
    cases hloca
  · rw [if_neg hg] at hloca
    injection hloca with hpair
    rw [Prod.mk.injEq] at hpair
    obtain ⟨hlt, hlc⟩ := hpair
    refine ⟨?_, ?_, ?_, ?_, ?_⟩
    · show lt.length = (if fmt = 0 then 2 else 4) * (ng + 1)
      rw [← hlt]
      by_cases hfmt : fmt = 0
      · rw [if_neg (by simp [hfmt]), if_pos hfmt]
        rw [length_flatten_map_const
              (fun v => be16 (((v % 4294967296) >>> 1) % 65536)) 2 (fun a => rfl)]
        simp [hlen]
      · rw [if_pos hfmt, if_neg hfmt]
        rw [length_flatten_map_const
              (fun v => be32 (v % 4294967296)) 4 (fun a => rfl)]
        simp [hlen]
    · simp [hlen]
    · simp
    · show List.Pairwise (· ≤ ·) (acc.loca_values ++ [acc.glyf_table.length])
      rw [List.pairwise_append]
      exact ⟨hsort, List.pairwise_singleton _ _, by
        intro x hx y hy; simp at hy; subst hy; exact hbd x hx⟩
    · intro v hv
      rcases List.mem_append.mp hv with hv | hv
      · have := hv4 v hv
        have hsr : v >>> 1 = v / 2 := Nat.shiftRight_one v
        omega
      · simp at hv; subst hv
        have hsr : acc.glyf_table.length >>> 1 = acc.glyf_table.length / 2 :=
          Nat.shiftRight_one _
        omega

/-- A transformed-glyf payload with two empty glyphs and long (`index_format
= 1`) loca offsets, used to witness `loca_table_invariants`. -/
def glyfTwoEmptyGlyphs : List Nat :=
  [0, 0, 0, 0, 0, 2, 0, 1,
   0, 0, 0, 4, 0, 0, 0, 0, 0, 0, 0, 0, 0, 0, 0, 0, 0, 0, 0, 0, 0, 0, 0, 4, 0, 0, 0, 0,
   0, 0, 0, 0,
   0, 0, 0, 0]

/-- The glyf/loca result of decoding `glyfTwoEmptyGlyphs`. -/
def glyfTwoEmptyResult : GlyfAndLocaData :=
  { num_glyphs := 2, index_format := 1, x_mins := [],
    glyf_table := [], glyf_checksum := 0,
    loca_table := [0, 0, 0, 0, 0, 0, 0, 0, 0, 0, 0, 0], loca_checksum := 0,
    loca_values := [0, 0, 0] }

/-- Witness for `loca_table_invariants` at a concrete successful decode. -/
theorem loca_table_invariants_witness :
    glyfTwoEmptyResult.loca_table.length =
      (if glyfTwoEmptyResult.index_format = 0 then 2 else 4) *
        (glyfTwoEmptyResult.num_glyphs + 1) ∧
    glyfTwoEmptyResult.loca_values.length = glyfTwoEmptyResult.num_glyphs + 1 ∧
    glyfTwoEmptyResult.loca_values.getLast? =
      some glyfTwoEmptyResult.glyf_table.length ∧
    List.Sorted (· ≤ ·) glyfTwoEmptyResult.loca_values ∧
    (∀ v ∈ glyfTwoEmptyResult.loca_values, v % 2 = 0 ∧ 2 * (v >>> 1) = v) :=
  loca_table_invariants glyfTwoEmptyGlyphs glyfTwoEmptyResult
    (by decide) (by decide)

/-! ## `decompress.rs`: the WOFF2 decode pipeline -/

/-- A panicking subslice `&l[a..b]`: `crash` when the range is invalid. -/
def sliceP (l : List Nat) (a b : Nat) : Res (List Nat) :=
  if a ≤ b ∧ b ≤ l.length then .ok ((l.drop a).take (b - a)) else .crash

/-- A panicking slice-element assignment `l[i] = v`. -/
def setP {α : Type} (l : List α) (i : Nat) (v : α) : Res (List α) :=
  if i < l.length then .ok (l.set i v) else .crash

/-- Writing `bytes` into `l` starting at `pos` (`&mut l[pos..]` followed by
`put_*` calls): `crash` when the write does not fit. -/
def writeAtP (l : List Nat) (pos : Nat) (bytes : List Nat) : Res (List Nat) :=
  if pos + bytes.length ≤ l.length then
    .ok (l.take pos ++ bytes ++ l.drop (pos + bytes.length))
  else .crash

/-- `u32::wrapping_sub`. -/
def sub32 (a b : Nat) : Nat :=
  (a + (4294967296 - b % 4294967296)) % 4294967296

/-- `TableMetadata` from `decompress.rs`. -/
structure TableMetadata where
  checksum : Nat
  dst_offset : Nat
  dst_length : Nat
  deriving Repr, DecidableEq

/-- `TableMetadata::header_checksum_contribution`:
`checksum + dst_offset + dst_length`, wrapping. -/
def TableMetadata.header_checksum_contribution (m : TableMetadata) : Nat :=
  (m.checksum + m.dst_offset + m.dst_length) % 4294967296

/-- `WOFF2FontInfo` from `types.rs`.  The tag→offset map is an association
list modelling the `HashMap` (insert overwrites an existing key). -/
structure WOFF2FontInfo where
  num_glyphs : Nat
  num_hmetrics : Nat
  index_format : Nat
  x_mins : List Int
  table_entry_by_tag : List (Nat × Nat)
  header_checksum : Nat
  deriving Repr, DecidableEq

/-- `HashMap::insert` on the association list: overwrite or append. -/
def hashInsert : List (Nat × Nat) → Nat → Nat → List (Nat × Nat)
  | [], k, v => [(k, v)]
  | (k0, v0) :: rest, k, v =>
      if k0 = k then (k, v) :: rest else (k0, v0) :: hashInsert rest k v

/-- `HashMap` lookup on the association list. -/
def hashGet : List (Nat × Nat) → Nat → Option Nat
  | [], _ => none
  | (k0, v0) :: rest, k => if k0 = k then some v0 else hashGet rest k

/-- `HeaderData` from `decompress.rs`. -/
structure HeaderData where
  data : List Nat
  checksum : Nat
  font_infos : List WOFF2FontInfo
  deriving Repr, DecidableEq

/-- The `max_pow2` loop of `write_table_directory_header` (and
`StoreOffsetTable`): largest `p` with `2^(p+1) ≤ num_tables`; fuelled, as
the `u32` shift bounds it at 31 for any `u16` table count. -/
def maxPow2Go : Nat → Nat → Nat → Nat
  | 0, p, _ => p
  | fuel + 1, p, n =>
      if (1 <<< (p + 1)) % 4294967296 ≤ n then maxPow2Go fuel (p + 1) n else p

/-- `write_table_directory_header` from `lib.rs`: sfnt version, numTables,
searchRange, entrySelector, rangeShift (all `u16` arithmetic wrapping). -/
def write_table_directory_header (flavor num_tables : Nat) : List Nat :=
  let max_pow2 := maxPow2Go 64 0 num_tables
  let entry_selector := max_pow2
  let search_range := (((1 <<< max_pow2) % 65536) <<< 4) % 65536
  let range_shift :=
    (((num_tables <<< 4) % 4294967296 + (4294967296 - search_range)) % 4294967296) % 65536
  be32 flavor ++ be16 num_tables ++ be16 search_range ++
    be16 entry_selector ++ be16 range_shift

/-- Per-font directory-entry loop of `generate_header`: record each tag's
entry offset in the map, then write the 16-byte zero-initialized entry.
`tables[table_index]` is a panicking index. -/
def tableDirEntriesGo (tables : List Woff2TableDirectoryEntry) :
    List Nat → List Nat → List (Nat × Nat) → Res (List Nat × List (Nat × Nat))
  | [], output, m => .ok (output, m)
  | idx :: rest, output, m =>
      match tables.get? idx with
      | none => .crash
      | some t =>
          tableDirEntriesGo tables rest
            (output ++ (be32 t.tag ++ be32 0 ++ be32 0 ++ be32 0))
            (hashInsert m t.tag output.length)

/-- Per-font loop of `generate_header`: write each font's offset table and
empty directory entries, recording the per-font `WOFF2FontInfo`. -/
def generateHeaderFonts (tables : List Woff2TableDirectoryEntry) :
    List CollectionDirectoryEntry → List Nat → Nat → List WOFF2FontInfo →
    Res (List Nat × Nat × List WOFF2FontInfo)
  | [], output, checksum, infos => .ok (output, checksum, infos)
  | font :: rest, output, checksum, infos => do
      let start_offset := output.length
      let output :=
        output ++ write_table_directory_header font.flavor (font.table_indices.length % 65536)
      let (output, m) ← tableDirEntriesGo tables font.table_indices output []
      let info_checksum := compute_checksum (output.drop start_offset)
      let info : WOFF2FontInfo :=
        { num_glyphs := 0, num_hmetrics := 0, index_format := 0, x_mins := [],
          table_entry_by_tag := m, header_checksum := info_checksum }
      generateHeaderFonts tables rest output ((checksum + info_checksum) % 4294967296)
        (infos ++ [info])

/-- TTC `tableDirectoryOffsets` loop of `generate_header` (`u32` running
offset). -/
def ttcOffsetsGo : List CollectionDirectoryEntry → Nat → List Nat → List Nat
  | [], _, out => out
  | f :: rest, off, out =>
      ttcOffsetsGo rest ((off + (12 + 16 * f.table_indices.length)) % 4294967296)
        (out ++ be32 (off % 4294967296))

/-- `generate_header` from `decompress.rs`: optional TTC header, then one
offset table + zeroed directory entries per font. -/
def generate_header (header : WoffHeader) (tables : List Woff2TableDirectoryEntry)
    (cd : CollectionDirectory) : Res HeaderData := do
  let num_fonts := cd.fonts.length
  let (output, checksum) ←
    if header.is_collection then do
      let output := be32 header.flavor ++ be32 cd.version ++ be32 (num_fonts % 4294967296)
      let first_table_directory_offset ←
        if cd.version = 0x00010000 then Res.ok (12 + 4 * num_fonts)
        else if cd.version = 0x00020000 then Res.ok (12 + 12 + 4 * num_fonts)
        else Res.crash
      let output := ttcOffsetsGo cd.fonts (first_table_directory_offset % 4294967296) output
      let output :=
        if cd.version = 0x00020000 then output ++ (be32 0 ++ be32 0 ++ be32 0) else output
      Res.ok (output, (0 + compute_checksum output) % 4294967296)
    else Res.ok ([], 0)
  let (output, checksum, font_infos) ← generateHeaderFonts tables cd.fonts output checksum []
  Res.ok { data := output, checksum, font_infos }

/-- `HeaderData::update_table_entry` from `decompress.rs`: back-patch
checksum/offset/length at `entry_offset + 4` in the (detached) header bytes
and fold them into the font's header checksum.  The `HashMap` index and the
`font_infos` index both panic when missing. -/
def update_table_entry (hd : HeaderData) (font_idx tag : Nat) (m : TableMetadata) :
    Res HeaderData := do
  let info ←
    match hd.font_infos.get? font_idx with
    | some info => Res.ok info
    | none => Res.crash
  let table_entry_offset ←
    match hashGet info.table_entry_by_tag tag with
    | some off => Res.ok off
    | none => Res.crash
  let data ← writeAtP hd.data (table_entry_offset + 4)
    (be32 m.checksum ++ be32 m.dst_offset ++ be32 m.dst_length)
  let checksum :=
    (((info.header_checksum + m.checksum) % 4294967296 + m.dst_offset) % 4294967296
      + m.dst_length) % 4294967296
  let font_infos ← setP hd.font_infos font_idx { info with header_checksum := checksum }
  Res.ok { data, checksum := hd.checksum, font_infos }

/-- `read_num_hmetrics` from `decompress.rs`: skip 34 bytes of `hhea`
(a panicking `advance`) and read a big-endian `u16`. -/
def read_num_hmetrics (hhea_data : List Nat) : Res Nat := do
  let d ← advanceP hhea_data 34
  let (v, _) ← tryGetU16 d
  Res.ok v

/-- Mutable state threaded through `reconstruct_font`'s table loop. -/
structure FontState where
  out : List Nat
  table_metadata : List (Option TableMetadata)
  out_header : HeaderData
  font_checksum : Nat
  num_glyphs : Option Nat
  x_mins : Option (List Int)
  deriving Repr, DecidableEq

/-- One iteration of `reconstruct_font`'s table loop (`decompress.rs`
171-297): bounds-check the table's span, reuse already-computed metadata
(only legal for later fonts, or `loca`), else dispatch — untransformed copy
(with the `head` checkSumAdjustment zeroing), transformed `glyf` (which also
finalizes `loca`), the `unreachable!` `loca` arm, transformed `hmtx` (whose
prerequisites are `.unwrap()`ed), or a failure for any other transformed
tag — then fold checksums and back-patch the directory entry. -/
def processTable (woff_data : List Nat) (tables : List Woff2TableDirectoryEntry)
    (loca_idx : Option Nat) (num_hmetrics : Option Nat) (font_idx : Nat)
    (st : FontState) (table_idx : Nat) : Res FontState := do
  let table ←
    match tables.get? table_idx with
    | some t => Res.ok t
    | none => Res.crash
  if table.woff_offset + table.woff_length > woff_data.length then Res.err
  else do
    let slot ←
      match st.table_metadata.get? table_idx with
      | some s => Res.ok s
      | none => Res.crash
    let (st, metadata) ←
      match slot with
      | some metadata =>
          if font_idx = 0 ∧ table.tag ≠ locaTag then Res.err
          else Res.ok (st, metadata)
      | none =>
        if ¬ table.is_transformed then do
          let check_sum_adjustment ←
            if table.tag = headTag then do
              if table.woff_length < 12 then Res.err
              else do
                let cs ← sliceP woff_data (table.woff_offset + 8) (table.woff_offset + 12)
                match cs with
                | [a, b, c, d] => Res.ok (((a * 256 + b) * 256 + c) * 256 + d)
                | _ => Res.crash
            else Res.ok 0
          let table_data ← table.data_as_slice woff_data
          let checksum := sub32 (compute_checksum table_data) check_sum_adjustment
          let metadata : TableMetadata :=
            { dst_offset := st.out.length % 4294967296,
              dst_length := table.woff_length, checksum }
          let tm ← setP st.table_metadata table_idx (some metadata)
          let out := pad4 (st.out ++ table_data)
          Res.ok ({ st with out, table_metadata := tm }, metadata)
        else if table.tag = glyfTag then do
          let li ←
            match loca_idx with
            | some li => Res.ok li
            | none => Res.crash
          let raw_glyf_table_data ← table.data_as_slice woff_data
          let g ← tranform_glyf_table raw_glyf_table_data
          let st := { st with num_glyphs := some g.num_glyphs, x_mins := some g.x_mins }
          let glyf_dest_offset := st.out.length
          let out := pad4 (st.out ++ g.glyf_table)
          let glyf_metadata : TableMetadata :=
            { checksum := g.glyf_checksum, dst_offset := glyf_dest_offset % 4294967296,
              dst_length := g.glyf_table.length % 4294967296 }
          let tm ← setP st.table_metadata table_idx (some glyf_metadata)
          let loca_dest_offset := out.length
          let out := pad4 (out ++ g.loca_table)
          let loca_metadata : TableMetadata :=
            { checksum := g.loca_checksum, dst_offset := loca_dest_offset % 4294967296,
              dst_length := g.loca_table.length % 4294967296 }
          let tm ← setP tm li (some loca_metadata)
          Res.ok ({ st with out, table_metadata := tm }, glyf_metadata)
        else if table.tag = locaTag then
          Res.crash
        else if table.tag = hmtxTag then do
          let ng ←
            match st.num_glyphs with
            | some v => Res.ok v
            | none => Res.crash
          let nh ←
            match num_hmetrics with
            | some v => Res.ok v
            | none => Res.crash
          let xm ←
            match st.x_mins with
            | some v => Res.ok v
            | none => Res.crash
          let raw_hmtx_table_data ← table.data_as_slice woff_data
          let hmtx_data ← decode_hmtx_table raw_hmtx_table_data ng nh xm
          let hmtx_table ← generate_hmtx_table hmtx_data
          let checksum := compute_checksum hmtx_table
          let dest_offset := st.out.length
          let out := pad4 (st.out ++ hmtx_table)
          let hmtx_metadata : TableMetadata :=
            { checksum, dst_offset := dest_offset % 4294967296,
              dst_length := hmtx_table.length % 4294967296 }
          let tm ← setP st.table_metadata table_idx (some hmtx_metadata)
          Res.ok ({ st with out, table_metadata := tm }, hmtx_metadata)
        else Res.err
    let font_checksum := (st.font_checksum + metadata.checksum) % 4294967296
    let oh ← update_table_entry st.out_header font_idx table.tag metadata
    let font_checksum := (font_checksum + metadata.header_checksum_contribution) % 4294967296
    Res.ok { st with out_header := oh, font_checksum }

/-- The table loop of `reconstruct_font`. -/
def fontTablesGo (woff_data : List Nat) (tables : List Woff2TableDirectoryEntry)
    (loca_idx num_hmetrics : Option Nat) (font_idx : Nat) :
    List Nat → FontState → Res FontState
  | [], st => .ok st
  | idx :: rest, st => do
      let st ← processTable woff_data tables loca_idx num_hmetrics font_idx st idx
      fontTablesGo woff_data tables loca_idx num_hmetrics font_idx rest st

/-- `reconstruct_font` from `decompress.rs`. -/
def reconstruct_font (woff_data : List Nat) (header : WoffHeader)
    (tables : List Woff2TableDirectoryEntry) (font_entry : CollectionDirectoryEntry)
    (out_header : HeaderData) (table_metadata : List (Option TableMetadata))
    (out : List Nat) (font_idx : Nat) :
    Res (HeaderData × List (Option TableMetadata) × List Nat) := do
  -- Check the glyf and loca tables are compatible with each other
  match font_entry.glyf_idx, font_entry.loca_idx with
  | some gi, some li =>
      (match tables.get? gi, tables.get? li with
       | some tg, some tl =>
           if tg.is_transformed ≠ tl.is_transformed then Res.err else Res.ok ()
       | _, _ => Res.crash)
  | some _, none => Res.err
  | none, some _ => Res.err
  | none, none => Res.ok ()
  let font_checksum ←
    if header.is_collection then Res.ok out_header.checksum
    else
      match out_header.font_infos.get? font_idx with
      | some fi => Res.ok fi.header_checksum
      | none => Res.crash
  let num_hmetrics ←
    match font_entry.hhea_idx with
    | some hi => do
        let hhea_table ←
          match tables.get? hi with
          | some t => Res.ok t
          | none => Res.crash
        let d ← hhea_table.data_as_slice woff_data
        let v ← read_num_hmetrics d
        Res.ok (some v)
    | none => Res.ok none
  let st : FontState :=
    { out, table_metadata, out_header, font_checksum,
      num_glyphs := none, x_mins := none }
  let st ← fontTablesGo woff_data tables (font_entry.loca_idx.map (·))
    num_hmetrics font_idx font_entry.table_indices st
  -- Update 'head' checkSumAdjustment.
  let checksum_adjustment := sub32 0xB1B0AFBA st.font_checksum
  let out ←
    match font_entry.head_idx with
    | some head_table_idx => do
        let slot ←
          match st.table_metadata.get? head_table_idx with
          | some s => Res.ok s
          | none => Res.crash
        let m ←
          match slot with
          | some m => Res.ok m
          | none => Res.crash
        writeAtP st.out (m.dst_offset + 8) (be32 checksum_adjustment)
    | none => Res.ok st.out
  Res.ok (st.out_header, st.table_metadata, out)

/-- Stable insertion step used to model Rust's stable sorts
(`sort_by_key`/`sort_by_cached_key`): an element is inserted after all
existing elements whose key is ≤ its own. -/
def insertSorted {α : Type} (key : α → Nat) (x : α) : List α → List α
  | [] => [x]
  | y :: ys => if key y ≤ key x then y :: insertSorted key x ys else x :: y :: ys

/-- A stable sort by key (insertion sort), extensionally the stable sort the
source calls. -/
def sortByKey {α : Type} (key : α → Nat) (l : List α) : List α :=
  l.foldl (fun acc x => insertSorted key x acc) []

/-- `CollectionDirectory::sort_tables_within_each_font` from `types.rs`:
stable-sort each font's table indices by the indexed entry's tag.  (The key
closure's `tables[idx]` cannot be out of range for any directory that parsed
successfully; it is modelled totally with default key 0.) -/
def sort_tables_within_each_font (cd : CollectionDirectory)
    (tables : List Woff2TableDirectoryEntry) : CollectionDirectory :=
  { cd with
    fonts := cd.fonts.map fun font =>
      { font with
        table_indices :=
          sortByKey
            (fun idx => match tables.get? idx with | some t => t.tag | none => 0)
            font.table_indices } }

/-- The compression-ratio test of `decompress_woff2_with_brotli`.  The source
computes `(total_sfnt_size as f32) / (raw_len as f32) > 100.0`; this is
modelled by the exact cross-multiplied comparison (for positive `raw_len`,
`sfnt / len > 100` over ℚ iff `100 * len < sfnt`), which agrees with the f32
computation away from its rounding error. -/
def compressionRatioExceeds (total_sfnt_size raw_len : Nat) : Bool :=
  100 * raw_len < total_sfnt_size

/-- Per-font loop of `decompress_woff2_with_brotli`. -/
def fontsGo (woff_data : List Nat) (header : WoffHeader)
    (tables : List Woff2TableDirectoryEntry) :
    List CollectionDirectoryEntry → Nat → HeaderData →
    List (Option TableMetadata) → List Nat → Res (List Nat)
  | [], _, _, _, out => .ok out
  | fe :: rest, font_idx, oh, tm, out => do
      let (oh, tm, out) ← reconstruct_font woff_data header tables fe oh tm out font_idx
      fontsGo woff_data header tables rest (font_idx + 1) oh tm out

/-- `decompress_woff2_with_brotli` from `decompress.rs`, the public WOFF2
decode with an injected decompressor.  Faithful points of note: the codec's
`Result` is `.unwrap()`ed (an `Err` is a panic, `crash`, not an error
return); the compressed span `&input[0..total_compressed_size]` is a
panicking slice; the codec's output size is never compared against
`total_sfnt_size`; and the back-patches of `reconstruct_font` go to the
detached `out_header.data`, never copied back into `out`. -/
def decompress_woff2_with_brotli (raw_woff_data : List Nat)
    (decompress_brotli : List Nat → Nat → Except Unit (List Nat)) :
    Res (List Nat) := do
  let (header, input) ← WoffHeader.parse raw_woff_data
  if header.woff_version ≠ WoffVersion.woff2 then Res.err
  else do
    let (table_directory, input) ← Woff2TableDirectory.parse input header.num_tables
    let (collection_directory, input) ←
      if header.is_collection then CollectionDirectory.parse input table_directory
      else
        Res.ok (CollectionDirectory.generate_for_single_font header.flavor table_directory,
                input)
    let collection_directory :=
      sort_tables_within_each_font collection_directory table_directory.tables
    let compressed_data ← sliceP input 0 header.total_compressed_size
    let decompressed_data ←
      match decompress_brotli compressed_data header.total_sfnt_size with
      | .ok d => Res.ok d
      | .error _ => Res.crash
    if header.total_sfnt_size < 1 then Res.err
    else if compressionRatioExceeds header.total_sfnt_size raw_woff_data.length then Res.err
    else do
      let out_header ← generate_header header table_directory.tables collection_directory
      let out := out_header.data
      let table_metadata : List (Option TableMetadata) :=
        List.replicate header.num_tables none
      fontsGo decompressed_data header table_directory.tables
        collection_directory.fonts 0 out_header table_metadata out

/-- A 48-byte WOFF2 header (signature `woF2`, flavor 0x00010000, declared
length 51, one table, reserved 0, `totalSfntSize` 1, the given
`totalCompressedSize`, empty metadata/private blocks), followed by nothing:
callers append the 3-byte table directory. -/
def woffHdr (tcs : Nat) : List Nat :=
  [0x77, 0x6F, 0x46, 0x32, 0, 1, 0, 0, 0, 0, 0, 51, 0, 1, 0, 0, 0, 0, 0, 1] ++ be32 tcs ++
  [0, 0, 0, 0, 0, 0, 0, 0, 0, 0, 0, 0, 0, 0, 0, 0, 0, 0, 0, 0, 0, 0, 0, 0]

/-- A well-formed 51-byte WOFF2 file: header with `totalCompressedSize = 0`
plus one untransformed `cmap` directory entry (flag byte 0x40, both lengths
0). -/
def c6woff : List Nat := woffHdr 0 ++ [0x40, 0, 0]

/-- The same file but declaring `totalCompressedSize = 5` while no compressed
bytes remain after the directory. -/
def c2woff : List Nat := woffHdr 5 ++ [0x40, 0, 0]

/-- C2: the public WOFF2 decode is **not** panic-free.  On `c2woff` — a
syntactically valid header and table directory whose declared
`totalCompressedSize` exceeds the bytes remaining — the slice
`&input[0..total_compressed_size]` (decompress.rs:67) is out of bounds and
panics (`crash`), for **every** injected decompressor (the codec is never
reached).  Other panicking paths exist (`.unwrap()` of the codec's `Err`,
`GlyfDecoder::new`'s overlap-bitmap slice, `decode_hmtx_table`'s assert). -/
theorem decompress_woff2_panics_on_short_compressed_stream :
    ∀ codec, decompress_woff2_with_brotli c2woff codec = Res.crash :=
  fun _codec => rfl

/-- C6: the decompression step's failure conditions are not as claimed.
On the well-formed `c6woff`: (a) a codec returning **fewer bytes than the
expected `totalSfntSize`** (here 0 < 1) is accepted and the decode returns
`ok` — no produced-size check exists; (b) a codec reporting an **error**
makes the decode panic (`crash`) through `.unwrap()` (decompress.rs:69)
instead of returning the decode's error value.  Only the ratio > 100 check
really returns an error. -/
theorem decompress_step_misses_size_check_and_panics_on_codec_error :
    (decompress_woff2_with_brotli c6woff (fun _ _ => Except.ok [])).isOk = true ∧
    decompress_woff2_with_brotli c6woff (fun _ _ => Except.error ()) = Res.crash := by
  exact ⟨by decide, by decide⟩

/-! ## `decompress_woff1.rs`: the WOFF1 decode path -/

/-- Modelled from the spec: the WOFF1 `TableDirectoryEntry` (its definition
is not among the provided sources; §3 of the spec fixes its fields: tag,
original checksum, WOFF-relative offset, compressed length, original
length). -/
structure TableDirectoryEntry where
  tag : Nat
  orig_checksum : Nat
  woff_offset : Nat
  woff_length : Nat
  orig_length : Nat
  deriving Repr, DecidableEq

/-- Modelled from the spec: the WOFF1 entry's `data_as_slice` — the
`woff_length` bytes at `woff_offset` of the WOFF file (§3: a table is
gzip-compressed iff compressed-length < original-length; either way its
stored bytes span `woff_offset .. woff_offset + compressed length`). -/
def TableDirectoryEntry.data_as_slice (e : TableDirectoryEntry)
    (data : List Nat) : Res (List Nat) :=
  if e.woff_offset + e.woff_length ≤ data.length then
    .ok ((data.drop e.woff_offset).take e.woff_length)
  else .err

/-- Modelled from the spec: the entry loop of `TableDirectory::parse_woff1`
(not among the provided sources; §4.10: fixed-size directory entries read
field by field, all big-endian `u32`s in §3's field order, each read failing
cleanly on truncation §4.1). -/
def parseWoff1Go : Nat → List Nat → List TableDirectoryEntry →
    Res (List TableDirectoryEntry × List Nat)
  | 0, input, acc => .ok (acc, input)
  | n + 1, input, acc => do
      let (tag, input) ← tryGetU32 input
      let (orig_checksum, input) ← tryGetU32 input
      let (woff_offset, input) ← tryGetU32 input
      let (woff_length, input) ← tryGetU32 input
      let (orig_length, input) ← tryGetU32 input
      parseWoff1Go n input
        (acc ++ [{ tag, orig_checksum, woff_offset, woff_length, orig_length }])

/-- Modelled from the spec: `TableDirectory::parse_woff1` (see
`parseWoff1Go`). -/
def parse_woff1 (input : List Nat) (num_tables : Nat) :
    Res (List TableDirectoryEntry × List Nat) :=
  parseWoff1Go num_tables input []

/-- Table loop of `decompress_woff1_with_custom_z`: write the table's
directory entry at its tag-sorted position, then the table body (gzip-inflated
iff compressed length < original length), pad to 4, and accumulate the
checksums of the entry and of the body span. -/
def woff1TablesGo (raw_woff_data : List Nat) (table_directory_start : Nat)
    (decompress_z : List Nat → Nat → Except Unit (List Nat)) :
    List (Nat × TableDirectoryEntry) → List Nat → Nat → Res (List Nat × Nat)
  | [], out, checksum => .ok (out, checksum)
  | (tag_index, table) :: rest, out, checksum => do
      let table_offset := out.length
      let table_end := table_offset + table.orig_length
      let dir_entry_start := table_directory_start + tag_index * 16
      let dir_entry_end := dir_entry_start + 16
      let out ← writeAtP out dir_entry_start
        (be32 table.tag ++ be32 table.orig_checksum ++
         be32 (table_offset % 4294967296) ++ be32 table.orig_length)
      let is_compressed := table.woff_length < table.orig_length
      let out ←
        if is_compressed then do
          let compressed_data ← table.data_as_slice raw_woff_data
          let decompressed_data ←
            match decompress_z compressed_data table.orig_length with
            | .ok d => Res.ok d
            | .error _ => Res.err
          if decompressed_data.length ≠ table.orig_length then Res.err
          else Res.ok (out ++ decompressed_data)
        else do
          let d ← table.data_as_slice raw_woff_data
          Res.ok (out ++ d)
      let out := pad4 out
      let entryBytes ← sliceP out dir_entry_start dir_entry_end
      let checksum := (checksum + compute_checksum entryBytes) % 4294967296
      let bodyBytes ← sliceP out table_offset table_end
      let checksum := (checksum + compute_checksum bodyBytes) % 4294967296
      woff1TablesGo raw_woff_data table_directory_start decompress_z rest out checksum

/-- `decompress_woff1_with_custom_z` from `decompress_woff1.rs`.  Note the
source ends with `// TODO: Checksum adjustment` — after the table loop the
output is returned as-is: `head.checkSumAdjustment` is **never computed or
written**, and the accumulated `checksum` is dropped. -/
def decompress_woff1_with_custom_z (raw_woff_data : List Nat)
    (decompress_z : List Nat → Nat → Except Unit (List Nat)) :
    Res (List Nat) := do
  let (header, input) ← WoffHeader.parse raw_woff_data
  if header.woff_version ≠ WoffVersion.woff1 then Res.err
  else do
    let (table_directory, _input) ← parse_woff1 input header.num_tables
    let table_directory := sortByKey (fun t => t.tag) table_directory
    let out := write_table_directory_header header.flavor (table_directory.length % 65536)
    let checksum := (0 + compute_checksum out) % 4294967296
    let table_directory_size := table_directory.length * 16
    let table_directory_start := out.length
    let out := out ++ List.replicate table_directory_size 0
    -- Sort tables by offset, while keeping track of their order by tag
    let tables_by_offset :=
      sortByKey (fun p => p.2.woff_offset) (List.enum table_directory)
    let (out, _checksum) ←
      woff1TablesGo raw_woff_data table_directory_start decompress_z
        tables_by_offset out checksum
    -- TODO: Checksum adjustment   (verbatim from the source: nothing happens)
    Res.ok out

/-- The `ok` payload of a result (empty list otherwise); lets concrete
theorems inspect a successful decode's output bytes. -/
def resOutOr (r : Res (List Nat)) : List Nat :=
  match r with
  | .ok v => v
  | _ => []

/-- A 118-byte WOFF1 file: 44-byte header (signature `woFF`, declared length
118, one table), one 20-byte directory entry for a `head` table (checksum 0,
offset 64, compressed length = original length = 54, hence stored
uncompressed), and the 54-byte `head` body whose `checkSumAdjustment` field
(bytes 8..12 of the table) holds `0xDEADBEEF`. -/
def c8woff : List Nat :=
  [0x77, 0x6F, 0x46, 0x46, 0, 1, 0, 0, 0, 0, 0, 118, 0, 1, 0, 0, 0, 0, 0, 0,
   0, 0, 0, 0, 0, 0, 0, 0, 0, 0, 0, 0, 0, 0, 0, 0, 0, 0, 0, 0, 0, 0, 0, 0] ++
  ([0x68, 0x65, 0x61, 0x64] ++ be32 0 ++ be32 64 ++ be32 54 ++ be32 54) ++
  ([0, 0, 0, 0, 0, 0, 0, 0, 0xDE, 0xAD, 0xBE, 0xEF] ++ List.replicate 42 0)

set_option maxRecDepth 4096

/-- C8: after a successful WOFF1 decode the four bytes at offset 8 of the
output's `head` table are **not** `0xB1B0AFBA − font_checksum`; they are the
input's bytes, copied verbatim — the source ends with `// TODO: Checksum
adjustment` and never writes the field (nor is it zeroed for checksumming).
Here the `head` table lands at output offset 28, the decode succeeds, bytes
36..40 of the output still read `0xDEADBEEF`, and that differs from the
claimed value `0xB1B0AFBA − checksum(output with the field zeroed)`. -/
theorem woff1_checksum_adjustment_never_written :
    (decompress_woff1_with_custom_z c8woff (fun _ _ => Except.error ())).isOk = true ∧
    ((resOutOr (decompress_woff1_with_custom_z c8woff
        (fun _ _ => Except.error ()))).drop 36).take 4 = [0xDE, 0xAD, 0xBE, 0xEF] ∧
    ((resOutOr (decompress_woff1_with_custom_z c8woff
        (fun _ _ => Except.error ()))).drop 36).take 4 ≠
      be32 (sub32 0xB1B0AFBA
        (compute_checksum
          ((resOutOr (decompress_woff1_with_custom_z c8woff
              (fun _ _ => Except.error ()))).take 36 ++ [0, 0, 0, 0] ++
           (resOutOr (decompress_woff1_with_custom_z c8woff
              (fun _ _ => Except.error ()))).drop 40))) := by
  exact ⟨by decide, by decide, by decide⟩
